import Mathlib

/-!
Verification development for the vibelang interpreter
(lexer, compiler, register VM, string interning, mark-and-sweep GC).

Each section shallowly embeds one C translation unit; theorems at the end
settle the specification claims against these embeddings.  Machine doubles
are modelled by exact rationals (ℚ); heap pointers by numeric object ids
into an explicit object list, mirroring the VM's intrusive allocation list.
-/

namespace Vibelang

/-! ## Lexer (src/lexer.c)

The token type enumeration follows lexer.h.  The class-era token kinds
(`class`, `constructor`, `this` keywords and the dot punctuator) appear in
the repository's parser and lexer tests, so they are part of the token
vocabulary even though src/lexer.c never produces them. -/

inductive TokenType where
  | TOKEN_EOF
  | TOKEN_IDENTIFIER
  | TOKEN_NUMBER
  | TOKEN_STRING
  | TOKEN_KEYWORD_LET
  | TOKEN_KEYWORD_FUNCTION
  | TOKEN_KEYWORD_RETURN
  | TOKEN_KEYWORD_IF
  | TOKEN_KEYWORD_ELSE
  | TOKEN_KEYWORD_WHILE
  | TOKEN_KEYWORD_TRUE
  | TOKEN_KEYWORD_FALSE
  | TOKEN_KEYWORD_NULL
  | TOKEN_KEYWORD_CLASS
  | TOKEN_KEYWORD_CONSTRUCTOR
  | TOKEN_KEYWORD_THIS
  | TOKEN_LPAREN
  | TOKEN_RPAREN
  | TOKEN_LBRACE
  | TOKEN_RBRACE
  | TOKEN_LBRACKET
  | TOKEN_RBRACKET
  | TOKEN_COMMA
  | TOKEN_SEMICOLON
  | TOKEN_DOT
  | TOKEN_PLUS
  | TOKEN_PLUS_EQUAL
  | TOKEN_MINUS
  | TOKEN_STAR
  | TOKEN_SLASH
  | TOKEN_EQUAL
  | TOKEN_EQUAL_EQUAL
  | TOKEN_BANG
  | TOKEN_BANG_EQUAL
  | TOKEN_GREATER
  | TOKEN_GREATER_EQUAL
  | TOKEN_LESS
  | TOKEN_LESS_EQUAL
  | TOKEN_ERROR
  deriving DecidableEq, Repr

open TokenType

structure Token where
  type : TokenType
  lexeme : List Char
  number_value : ℚ
  deriving DecidableEq, Repr

/-- NUL terminator of a C string; the cursor model treats running off the
list as reading this character, exactly as `*current == '\0'` does. -/
def nulChar : Char := Char.ofNat 0

def peekc : List Char → Char
  | [] => nulChar
  | c :: _ => c

def is_at_end (l : List Char) : Bool := peekc l = nulChar

def advance : List Char → List Char
  | [] => []
  | _ :: rest => rest

def peek_next (l : List Char) : Char :=
  match l with
  | [] => nulChar
  | _ :: rest => peekc rest

/-- C `isdigit` in the C locale. -/
def cIsDigit (c : Char) : Bool := 48 ≤ c.toNat && c.toNat ≤ 57

/-- C `isalpha` in the C locale. -/
def cIsAlpha (c : Char) : Bool :=
  (65 ≤ c.toNat && c.toNat ≤ 90) || (97 ≤ c.toNat && c.toNat ≤ 122)

/-- C `isalnum` in the C locale. -/
def cIsAlnum (c : Char) : Bool := cIsAlpha c || cIsDigit c

/-- Body of the `//` comment loop: advance while not at a newline and not
at the end of input. -/
def skip_line_comment (l : List Char) : List Char :=
  l.dropWhile (fun c => decide (c ≠ '\n') && decide (c ≠ nulChar))

/-- One-for-one rendering of the `for (;;)` loop of `skip_whitespace`;
the fuel bounds the number of iterations (each iteration that recurses
consumes at least one character, so `length + 1` is always enough). -/
def skip_ws_go : Nat → List Char → List Char
  | 0, l => l
  | fuel + 1, l =>
    let c := peekc l
    if c = ' ' || c = '\r' || c = '\t' || c = '\n' then
      skip_ws_go fuel (advance l)
    else if c = '/' then
      if peek_next l = '/' then skip_ws_go fuel (skip_line_comment l)
      else l
    else l

def skip_whitespace (l : List Char) : List Char := skip_ws_go (l.length + 1) l

/-- The keyword switch of `identifier_type` in src/lexer.c.  Note that it
recognises only `else false function if let null return true while`; the
class-era keywords fall through to `TOKEN_IDENTIFIER`. -/
def identifier_type (s : List Char) : TokenType :=
  match peekc s with
  | 'e' => if s = "else".toList then TOKEN_KEYWORD_ELSE else TOKEN_IDENTIFIER
  | 'f' =>
    if s = "false".toList then TOKEN_KEYWORD_FALSE
    else if s = "function".toList then TOKEN_KEYWORD_FUNCTION
    else TOKEN_IDENTIFIER
  | 'i' => if s = "if".toList then TOKEN_KEYWORD_IF else TOKEN_IDENTIFIER
  | 'l' => if s = "let".toList then TOKEN_KEYWORD_LET else TOKEN_IDENTIFIER
  | 'n' => if s = "null".toList then TOKEN_KEYWORD_NULL else TOKEN_IDENTIFIER
  | 'r' => if s = "return".toList then TOKEN_KEYWORD_RETURN else TOKEN_IDENTIFIER
  | 't' => if s = "true".toList then TOKEN_KEYWORD_TRUE else TOKEN_IDENTIFIER
  | 'w' => if s = "while".toList then TOKEN_KEYWORD_WHILE else TOKEN_IDENTIFIER
  | _ => TOKEN_IDENTIFIER

/-- Value of a digit character. -/
def digitVal (c : Char) : ℚ := ((c.toNat - 48 : Nat) : ℚ)

/-- Integer part of `strtod` on a digit string. -/
def parse_int_digits (ds : List Char) : ℚ :=
  ds.foldl (fun acc c => 10 * acc + digitVal c) 0

/-- Fractional part of `strtod` on the digits after the dot. -/
def parse_frac_digits (ds : List Char) : ℚ :=
  (ds.foldr (fun c acc => (digitVal c + acc) / 10) 0)

/-- The numeric value `strtod` assigns to a lexeme `intpart[.fracpart]`
(modelled exactly over ℚ rather than with double rounding). -/
def strtod_model (intPart fracPart : List Char) : ℚ :=
  parse_int_digits intPart + parse_frac_digits fracPart

/-- The `number` helper: scan digits, then a fractional part only when the
dot is immediately followed by a digit.  Returns the finished token and
the rest of the input. -/
def lex_number (l : List Char) : Token × List Char :=
  let intPart := l.takeWhile cIsDigit
  let rest1 := l.dropWhile cIsDigit
  if cIsDigit (peek_next rest1) && decide (peekc rest1 = '.') then
    let fracPart := (advance rest1).takeWhile cIsDigit
    let rest2 := (advance rest1).dropWhile cIsDigit
    (⟨TOKEN_NUMBER, intPart ++ '.' :: fracPart, strtod_model intPart fracPart⟩, rest2)
  else
    (⟨TOKEN_NUMBER, intPart, strtod_model intPart []⟩, rest1)

/-- The `string` helper; `l` starts at the opening quote. -/
def lex_string (l : List Char) : Token × List Char :=
  let body := (advance l).takeWhile (fun c => decide (c ≠ '"') && decide (c ≠ '\n'))
  let after := (advance l).dropWhile (fun c => decide (c ≠ '"') && decide (c ≠ '\n'))
  if peekc after = '"' then
    (⟨TOKEN_STRING, body, 0⟩, advance after)
  else
    (⟨TOKEN_ERROR, "Unterminated string literal".toList, 0⟩, after)

/-- The `identifier` helper; `l` starts at the identifier's first char. -/
def lex_identifier (l : List Char) : Token × List Char :=
  let name := l.takeWhile (fun c => cIsAlnum c || c = '_')
  let rest := l.dropWhile (fun c => cIsAlnum c || c = '_')
  (⟨identifier_type name, name, 0⟩, rest)

def make_error_token (msg : String) : Token := ⟨TOKEN_ERROR, msg.toList, 0⟩

/-- Shallow embedding of `lexer_next_token`: it returns the token together
with the rest of the source (the updated cursor). -/
def lexer_next_token (source : List Char) : Token × List Char :=
  let l := skip_whitespace source
  if is_at_end l then (⟨TOKEN_EOF, [], 0⟩, l)
  else
    let c := peekc l
    let l1 := advance l
    if cIsAlpha c || c = '_' then lex_identifier l
    else if cIsDigit c then lex_number l
    else
      match c with
      | '(' => (⟨TOKEN_LPAREN, [c], 0⟩, l1)
      | ')' => (⟨TOKEN_RPAREN, [c], 0⟩, l1)
      | '{' => (⟨TOKEN_LBRACE, [c], 0⟩, l1)
      | '}' => (⟨TOKEN_RBRACE, [c], 0⟩, l1)
      | '[' => (⟨TOKEN_LBRACKET, [c], 0⟩, l1)
      | ']' => (⟨TOKEN_RBRACKET, [c], 0⟩, l1)
      | ',' => (⟨TOKEN_COMMA, [c], 0⟩, l1)
      | ';' => (⟨TOKEN_SEMICOLON, [c], 0⟩, l1)
      | '+' =>
        if peekc l1 = '=' then (⟨TOKEN_PLUS_EQUAL, "+=".toList, 0⟩, advance l1)
        else (⟨TOKEN_PLUS, [c], 0⟩, l1)
      | '-' => (⟨TOKEN_MINUS, [c], 0⟩, l1)
      | '*' => (⟨TOKEN_STAR, [c], 0⟩, l1)
      | '/' => (⟨TOKEN_SLASH, [c], 0⟩, l1)
      | '!' =>
        if peekc l1 = '=' then (⟨TOKEN_BANG_EQUAL, "!=".toList, 0⟩, advance l1)
        else (⟨TOKEN_BANG, [c], 0⟩, l1)
      | '=' =>
        if peekc l1 = '=' then (⟨TOKEN_EQUAL_EQUAL, "==".toList, 0⟩, advance l1)
        else (⟨TOKEN_EQUAL, [c], 0⟩, l1)
      | '>' =>
        if peekc l1 = '=' then (⟨TOKEN_GREATER_EQUAL, ">=".toList, 0⟩, advance l1)
        else (⟨TOKEN_GREATER, [c], 0⟩, l1)
      | '<' =>
        if peekc l1 = '=' then (⟨TOKEN_LESS_EQUAL, "<=".toList, 0⟩, advance l1)
        else (⟨TOKEN_LESS, [c], 0⟩, l1)
      | '"' => lex_string l
      | _ => (make_error_token "Unexpected character", l1)

end Vibelang

namespace Vibelang

/-! ## Values and heap objects (value.h, object.h)

Heap pointers are modelled by numeric object ids; the VM's intrusive
allocation list is an explicit list of objects carrying id, mark bit and
payload.  Machine doubles are modelled by exact rationals. -/

abbrev ObjId := Nat

inductive Value where
  | vnull
  | vbool (b : Bool)
  | vnum (q : ℚ)
  | vobj (id : ObjId)
  deriving DecidableEq, Repr

structure RtChunk where
  code : List Nat
  lines : List Nat
  constants : List Value
  deriving DecidableEq, Repr

inductive ObjData where
  | ostr (chars : List Char) (hash : Nat)
  | ofun (arity : Nat) (register_count : Nat) (chunk : RtChunk) (name : Option ObjId)
  | oarr (elements : List Value)
  | ocls (name : Option ObjId) (methods : List (ObjId × Value))
  | oinst (klass : ObjId) (fields : List (ObjId × Value))
  | obound (receiver : Value) (method : ObjId)
  deriving DecidableEq, Repr

structure HeapObj where
  id : ObjId
  marked : Bool
  data : ObjData
  deriving DecidableEq, Repr

structure CallFrame where
  function : ObjId
  ip : Nat
  base : Nat
  caller_base : Option Nat
  return_reg : Nat
  deriving DecidableEq, Repr

/-- The VM state.  `stack` is the physical backing store of the value
stack (the part of the capacity written so far) and `stack_top` the live
extent, so that — exactly as in C — popping only moves the top index and
slots above it retain their last written value. -/
structure VM where
  frames : List CallFrame
  stack : List Value
  stack_top : Nat
  globals : List (Value × Bool)
  strings : List ObjId
  objects : List HeapObj
  bytes_allocated : Nat
  next_gc : Nat
  gray_stack : List ObjId
  next_id : ObjId
  deriving DecidableEq, Repr

def heapFind (objects : List HeapObj) (id : ObjId) : Option HeapObj :=
  objects.find? (fun o => o.id = id)

def ObjData.isStr : ObjData → Bool
  | .ostr _ _ => true
  | _ => false

def ObjData.isArr : ObjData → Bool
  | .oarr _ => true
  | _ => false

def ObjData.isFun : ObjData → Bool
  | .ofun _ _ _ _ => true
  | _ => false

/-- Bytes of the string object behind `id`, when there is one. -/
def strContents (objects : List HeapObj) (id : ObjId) : Option (List Char) :=
  match heapFind objects id with
  | some o =>
    match o.data with
    | .ostr chars _ => some chars
    | _ => none
  | none => none

def value_is_string (objects : List HeapObj) : Value → Bool
  | .vobj id =>
    match heapFind objects id with
    | some o => o.data.isStr
    | none => false
  | _ => false

def value_is_array (objects : List HeapObj) : Value → Bool
  | .vobj id =>
    match heapFind objects id with
    | some o => o.data.isArr
    | none => false
  | _ => false

/-- value_equals from value.c: same-variant structural equality; strings by
byte content, other heap objects by identity.  (NaN does not exist in the
rational model of doubles.) -/
def value_equals (objects : List HeapObj) : Value → Value → Bool
  | .vnull, .vnull => true
  | .vbool a, .vbool b => a = b
  | .vnum a, .vnum b => a = b
  | .vobj i, .vobj j =>
    if value_is_string objects (.vobj i) && value_is_string objects (.vobj j) then
      if i = j then true
      else decide (strContents objects i = strContents objects j)
    else i = j
  | _, _ => false

/-- value_is_truthy from value.c: null and false are falsy. -/
def value_is_truthy : Value → Bool
  | .vnull => false
  | .vbool b => b
  | _ => true

/-! ## Allocation and byte accounting (object.c)

Sizes are the x86-64 struct sizes; their exact values are irrelevant to
every claim.  A growable buffer's capacity is modelled as exactly its
count, so allocation and free account the same quantities. -/

def sizeof_Value : Nat := 16
def sizeof_ObjProperty : Nat := 24

def obj_size : ObjData → Nat
  | .ostr _ _ => 40
  | .ofun _ _ _ _ => 72
  | .oarr _ => 40
  | .ocls _ _ => 48
  | .oinst _ _ => 48
  | .obound _ _ => 40

/-- Payload bytes obj_free subtracts beyond the struct itself. -/
def obj_payload_bytes : ObjData → Nat
  | .ostr chars _ => chars.length + 1
  | .oarr elems => elems.length * sizeof_Value
  | .ocls _ ms => ms.length * sizeof_ObjProperty
  | .oinst _ fs => fs.length * sizeof_ObjProperty
  | _ => 0

def obj_free_bytes (d : ObjData) : Nat := obj_size d + obj_payload_bytes d

/-- allocate_object: prepend to the intrusive list, count the bytes. -/
def allocate_object (vm : VM) (d : ObjData) : VM × ObjId :=
  let id := vm.next_id
  ({ vm with
      objects := ⟨id, false, d⟩ :: vm.objects
      bytes_allocated := vm.bytes_allocated + obj_size d
      next_id := id + 1 }, id)

/-- Write one stack slot, extending the backing store when the slot lies
beyond what has been written so far (ensure_stack_capacity). -/
def stack_write (st : List Value) (i : Nat) (v : Value) : List Value :=
  (st ++ List.replicate (i + 1 - st.length) Value.vnull).set i v

def vm_push (vm : VM) (v : Value) : VM :=
  { vm with
    stack := stack_write vm.stack vm.stack_top v
    stack_top := vm.stack_top + 1 }

def vm_pop (vm : VM) : VM × Value :=
  ({ vm with stack_top := vm.stack_top - 1 },
    vm.stack.getD (vm.stack_top - 1) .vnull)

/-! ## String interning (object.c, table.c) -/

/-- One step of FNV-1a on a byte, with 32-bit wraparound. -/
def fnvStep (h : Nat) (c : Char) : Nat := ((h ^^^ c.toNat) * 16777619) % 2 ^ 32

/-- hash_bytes from object.c (FNV-1a). -/
def hash_bytes (chars : List Char) : Nat := chars.foldl fnvStep 2166136261

/-- string_equals from table.c: hash, then length, then bytes. -/
def string_equals (d : ObjData) (cs : List Char) (h : Nat) : Bool :=
  match d with
  | .ostr chars hash => hash = h && chars.length = cs.length && chars = cs
  | _ => false

/-- table_find_string: linear scan in insertion order. -/
def table_find_string (objects : List HeapObj) (keys : List ObjId)
    (cs : List Char) (h : Nat) : Option ObjId :=
  keys.find? (fun k =>
    match heapFind objects k with
    | some o => string_equals o.data cs h
    | none => false)

/-- table_define: no-op when equal content is already present, else append. -/
def table_define (vm : VM) (key : ObjId) : VM :=
  match heapFind vm.objects key with
  | some o =>
    match o.data with
    | .ostr chars h =>
      if (table_find_string vm.objects vm.strings chars h).isSome then vm
      else { vm with strings := vm.strings ++ [key] }
    | _ => vm
  | none => vm

/-- allocate_string: allocate_object plus the character buffer bytes. -/
def allocate_string (vm : VM) (chars : List Char) (h : Nat) : VM × ObjId :=
  let p := allocate_object vm (.ostr chars h)
  ({ p.1 with bytes_allocated := p.1.bytes_allocated + chars.length + 1 }, p.2)

/-- obj_string_take: return the interned object when the content exists,
else allocate, push for GC safety, intern, pop. -/
def obj_string_take (vm : VM) (chars : List Char) : VM × ObjId :=
  let h := hash_bytes chars
  match table_find_string vm.objects vm.strings chars h with
  | some interned => (vm, interned)
  | none =>
    let p := allocate_string vm chars h
    let vm2 := vm_push p.1 (.vobj p.2)
    let vm3 := table_define vm2 p.2
    ((vm_pop vm3).1, p.2)

/-- obj_string_copy duplicates the buffer and delegates to obj_string_take;
in the model the two coincide. -/
def obj_string_copy (vm : VM) (chars : List Char) : VM × ObjId :=
  obj_string_take vm chars

end Vibelang

namespace Vibelang

/-! ## Arrays, classes, instances, bound methods (object.c) -/

/-- Replace the payload of the object `id` in the allocation list. -/
def heapSet (objects : List HeapObj) (id : ObjId) (d : ObjData) : List HeapObj :=
  objects.map (fun o => if o.id = id then { o with data := d } else o)

def obj_array_new (vm : VM) : VM × ObjId := allocate_object vm (.oarr [])

/-- obj_array_copy: a fresh array initialised with a copy of `values`. -/
def obj_array_copy (vm : VM) (values : List Value) : VM × ObjId :=
  let p := obj_array_new vm
  ({ p.1 with
      objects := heapSet p.1.objects p.2 (.oarr values)
      bytes_allocated := p.1.bytes_allocated + values.length * sizeof_Value }, p.2)

/-- obj_array_append: push one value; `none` models the NULL-argument guard
(the only failure path that does not abort the process). -/
def obj_array_append (vm : VM) (id : ObjId) (v : Value) : Option VM :=
  match heapFind vm.objects id with
  | some o =>
    match o.data with
    | .oarr elems =>
      some { vm with
        objects := heapSet vm.objects id (.oarr (elems ++ [v]))
        bytes_allocated := vm.bytes_allocated + sizeof_Value }
    | _ => none
  | none => none

/-- obj_array_extend: append a block of values. -/
def obj_array_extend (vm : VM) (id : ObjId) (values : List Value) : Option VM :=
  if values.length = 0 then some vm
  else
    match heapFind vm.objects id with
    | some o =>
      match o.data with
      | .oarr elems =>
        some { vm with
          objects := heapSet vm.objects id (.oarr (elems ++ values))
          bytes_allocated := vm.bytes_allocated + values.length * sizeof_Value }
      | _ => none
    | none => none

def obj_class_new (vm : VM) (name : ObjId) : VM × ObjId :=
  allocate_object vm (.ocls (some name) [])

/-- The method-table update of obj_class_define_method: replace the value
of the first entry whose name is identical, else append a new entry. -/
def define_method_list (ms : List (ObjId × Value)) (name : ObjId) (v : Value) :
    List (ObjId × Value) :=
  match ms with
  | [] => [(name, v)]
  | (n, w) :: rest =>
    if n = name then (n, v) :: rest
    else (n, w) :: define_method_list rest name v

/-- The lookup of obj_class_find_method / obj_instance_get_field: first
entry whose name is identical. -/
def find_method_list (ms : List (ObjId × Value)) (name : ObjId) : Option Value :=
  (ms.find? (fun p => p.1 = name)).map (fun p => p.2)

def obj_class_define_method (vm : VM) (cid : ObjId) (name : ObjId) (v : Value) :
    Option VM :=
  match heapFind vm.objects cid with
  | some o =>
    match o.data with
    | .ocls cname ms =>
      let grown := if (find_method_list ms name).isSome then 0 else sizeof_ObjProperty
      some { vm with
        objects := heapSet vm.objects cid (.ocls cname (define_method_list ms name v))
        bytes_allocated := vm.bytes_allocated + grown }
    | _ => none
  | none => none

def obj_class_find_method (vm : VM) (cid : ObjId) (name : ObjId) : Option Value :=
  match heapFind vm.objects cid with
  | some o =>
    match o.data with
    | .ocls _ ms => find_method_list ms name
    | _ => none
  | none => none

def obj_instance_new (vm : VM) (klass : ObjId) : VM × ObjId :=
  allocate_object vm (.oinst klass [])

def obj_instance_get_field (vm : VM) (iid : ObjId) (name : ObjId) : Option Value :=
  match heapFind vm.objects iid with
  | some o =>
    match o.data with
    | .oinst _ fs => find_method_list fs name
    | _ => none
  | none => none

def obj_instance_set_field (vm : VM) (iid : ObjId) (name : ObjId) (v : Value) :
    Option VM :=
  match heapFind vm.objects iid with
  | some o =>
    match o.data with
    | .oinst k fs =>
      let grown := if (find_method_list fs name).isSome then 0 else sizeof_ObjProperty
      some { vm with
        objects := heapSet vm.objects iid (.oinst k (define_method_list fs name v))
        bytes_allocated := vm.bytes_allocated + grown }
    | _ => none
  | none => none

def obj_bound_method_new (vm : VM) (receiver : Value) (method : ObjId) : VM × ObjId :=
  allocate_object vm (.obound receiver method)

end Vibelang

namespace Vibelang

/-! ## Mark-and-sweep garbage collector (vm.c) -/

def setMarked (objects : List HeapObj) (id : ObjId) (b : Bool) : List HeapObj :=
  objects.map (fun o => if o.id = id then { o with marked := b } else o)

/-- mark_object: set the mark bit and push onto the gray stack; a missing
or already-marked object is left alone. -/
def mark_object (vm : VM) (id : ObjId) : VM :=
  match heapFind vm.objects id with
  | none => vm
  | some o =>
    if o.marked then vm
    else
      { vm with
        objects := setMarked vm.objects id true
        gray_stack := id :: vm.gray_stack }

def mark_value (vm : VM) (v : Value) : VM :=
  match v with
  | .vobj id => mark_object vm id
  | _ => vm

/-- mark_roots: every stack slot, every active frame's function, every
defined global. -/
def mark_roots (vm : VM) : VM :=
  let vm1 := (vm.stack.take vm.stack_top).foldl mark_value vm
  let vm2 := vm.frames.foldl (fun s f => mark_object s f.function) vm1
  vm.globals.foldl (fun s g => if g.2 then mark_value s g.1 else s) vm2

/-- blacken_object: mark all outgoing references of one object. -/
def blacken_object (vm : VM) (id : ObjId) : VM :=
  match heapFind vm.objects id with
  | none => vm
  | some o =>
    match o.data with
    | .ofun _ _ chunk name =>
      let vm1 := match name with
        | some nid => mark_object vm nid
        | none => vm
      chunk.constants.foldl mark_value vm1
    | .ostr _ _ => vm
    | .oarr elems => elems.foldl mark_value vm
    | .ocls name ms =>
      let vm1 := match name with
        | some nid => mark_object vm nid
        | none => vm
      ms.foldl (fun s p => mark_value (mark_object s p.1) p.2) vm1
    | .oinst klass fs =>
      let vm1 := mark_object vm klass
      fs.foldl (fun s p => mark_value (mark_object s p.1) p.2) vm1
    | .obound receiver m => mark_object (mark_value vm receiver) m

def countUnmarked (objects : List HeapObj) : Nat :=
  (objects.filter (fun o => !o.marked)).length

/-- Termination measure for the tracing worklist: marking an object trades
two units of unmarked weight for one unit of gray weight. -/
def gcMeasure (vm : VM) : Nat := 2 * countUnmarked vm.objects + vm.gray_stack.length

theorem countUnmarked_setMarked_le (objects : List HeapObj) (id : ObjId) :
    countUnmarked (setMarked objects id true) ≤ countUnmarked objects := by
  induction objects with
  | nil => simp [countUnmarked, setMarked]
  | cons o rest ih =>
    simp only [countUnmarked, setMarked, List.map_cons, List.filter_cons] at *
    by_cases hid : o.id = id
    · simp [hid]
      cases hm : o.marked <;> simp [hm] <;> omega
    · simp [hid]
      cases hm : o.marked <;> simp [hm] <;> omega

theorem countUnmarked_setMarked_lt (objects : List HeapObj) (id : ObjId)
    (o : HeapObj) (ho : heapFind objects id = some o) (hm : o.marked = false) :
    countUnmarked (setMarked objects id true) < countUnmarked objects := by
  induction objects with
  | nil => simp [heapFind] at ho
  | cons x rest ih =>
    simp only [heapFind, List.find?_cons] at ho
    by_cases hid : x.id = id
    · simp [hid] at ho
      subst ho
      simp only [countUnmarked, setMarked, List.map_cons, List.filter_cons, hid, hm]
      simp
      calc ((setMarked rest id true).filter (fun o => !o.marked)).length
          ≤ (rest.filter (fun o => !o.marked)).length := countUnmarked_setMarked_le rest id
        _ < (rest.filter (fun o => !o.marked)).length + 1 := Nat.lt_succ_self _
    · have hd : (decide (x.id = id)) = false := by simp [hid]
      rw [hd] at ho
      have := ih ho
      simp only [countUnmarked, setMarked, List.map_cons, List.filter_cons, hid] at *
      simp only [if_neg hid]
      cases hxm : x.marked <;> simp [hxm] <;> omega

theorem gcMeasure_mark_object_le (vm : VM) (id : ObjId) :
    gcMeasure (mark_object vm id) ≤ gcMeasure vm := by
  unfold mark_object
  cases ho : heapFind vm.objects id with
  | none => simp
  | some o =>
    cases hm : o.marked with
    | true => simp [hm]
    | false =>
      simp only [hm, Bool.false_eq_true, if_false]
      have h1 := countUnmarked_setMarked_lt vm.objects id o ho hm
      simp only [gcMeasure, List.length_cons]
      omega

theorem gcMeasure_mark_value_le (vm : VM) (v : Value) :
    gcMeasure (mark_value vm v) ≤ gcMeasure vm := by
  cases v <;> simp [mark_value]
  exact gcMeasure_mark_object_le _ _

theorem gcMeasure_foldl_le {α : Type} (f : VM → α → VM)
    (hf : ∀ s a, gcMeasure (f s a) ≤ gcMeasure s) :
    ∀ (l : List α) (s : VM), gcMeasure (l.foldl f s) ≤ gcMeasure s := by
  intro l
  induction l with
  | nil => intro s; simp
  | cons a rest ih =>
    intro s
    simp only [List.foldl_cons]
    exact le_trans (ih (f s a)) (hf s a)

theorem gcMeasure_pair_step_le (s : VM) (p : ObjId × Value) :
    gcMeasure (mark_value (mark_object s p.1) p.2) ≤ gcMeasure s :=
  le_trans (gcMeasure_mark_value_le _ _) (gcMeasure_mark_object_le _ _)

theorem gcMeasure_blacken_le (vm : VM) (id : ObjId) :
    gcMeasure (blacken_object vm id) ≤ gcMeasure vm := by
  unfold blacken_object
  cases ho : heapFind vm.objects id with
  | none => simp
  | some o =>
    simp only [Option.some.injEq]
    cases hd : o.data with
    | ofun arity rc chunk name =>
      refine le_trans (gcMeasure_foldl_le _ gcMeasure_mark_value_le _ _) ?_
      cases name with
      | some nid => exact gcMeasure_mark_object_le _ _
      | none => simp
    | ostr chars hsh => simp
    | oarr elems => exact gcMeasure_foldl_le _ gcMeasure_mark_value_le _ _
    | ocls name ms =>
      refine le_trans (gcMeasure_foldl_le _ gcMeasure_pair_step_le _ _) ?_
      cases name with
      | some nid => exact gcMeasure_mark_object_le _ _
      | none => simp
    | oinst klass fs =>
      exact le_trans (gcMeasure_foldl_le _ gcMeasure_pair_step_le _ _)
        (gcMeasure_mark_object_le _ _)
    | obound receiver m =>
      exact le_trans (gcMeasure_mark_object_le _ _) (gcMeasure_mark_value_le _ _)

/-- One-step-per-fuel-unit rendering of the trace_references loop: pop and
blacken until the gray stack is empty. -/
def trace_go : Nat → VM → VM
  | 0, vm => vm
  | fuel + 1, vm =>
    match vm.gray_stack with
    | [] => vm
    | id :: rest => trace_go fuel (blacken_object { vm with gray_stack := rest } id)

/-- Popping then blackening strictly decreases the measure. -/
theorem gcMeasure_trace_step_lt (vm : VM) (id : ObjId) (rest : List ObjId)
    (h : vm.gray_stack = id :: rest) :
    gcMeasure (blacken_object { vm with gray_stack := rest } id) < gcMeasure vm := by
  have h1 : gcMeasure (blacken_object { vm with gray_stack := rest } id)
      ≤ gcMeasure { vm with gray_stack := rest } := gcMeasure_blacken_le _ _
  have h2 : gcMeasure { vm with gray_stack := rest } < gcMeasure vm := by
    simp only [gcMeasure, h, List.length_cons]
    omega
  omega

/-- trace_references: the loop runs to completion; `gcMeasure` fuel always
suffices because every iteration strictly decreases it. -/
def trace_references (vm : VM) : VM := trace_go (gcMeasure vm) vm

/-- With at least `gcMeasure` fuel the worklist loop empties the gray
stack, i.e. the fueled rendering and the C loop agree. -/
theorem trace_go_gray_empty :
    ∀ (fuel : Nat) (vm : VM), gcMeasure vm ≤ fuel → (trace_go fuel vm).gray_stack = [] := by
  intro fuel
  induction fuel with
  | zero =>
    intro vm h
    cases hg : vm.gray_stack with
    | nil => simpa [trace_go] using hg
    | cons id rest =>
      exfalso
      have : vm.gray_stack.length = 0 := by
        have := gcMeasure_trace_step_lt vm id rest hg
        simp only [gcMeasure] at h ⊢
        omega
      simp [hg] at this
  | succ n ih =>
    intro vm h
    cases hg : vm.gray_stack with
    | nil => simp [trace_go, hg]
    | cons id rest =>
      simp only [trace_go, hg]
      refine ih _ ?_
      have := gcMeasure_trace_step_lt vm id rest hg
      omega

theorem trace_references_gray_empty (vm : VM) :
    (trace_references vm).gray_stack = [] :=
  trace_go_gray_empty _ _ le_rfl

/-- table_remove_white: keep exactly the interned entries whose object is
marked, preserving order. -/
def table_remove_white (vm : VM) : VM :=
  { vm with
    strings := vm.strings.filter (fun id =>
      match heapFind vm.objects id with
      | some o => o.marked
      | none => false) }

/-- One pass of sweep over the allocation list: survivors (in order, with
marks cleared) together with the bytes returned by obj_free. -/
def sweep_objects : List HeapObj → List HeapObj × Nat
  | [] => ([], 0)
  | o :: rest =>
    let p := sweep_objects rest
    if o.marked then ({ o with marked := false } :: p.1, p.2)
    else (p.1, p.2 + obj_free_bytes o.data)

def sweep (vm : VM) : VM :=
  let p := sweep_objects vm.objects
  { vm with objects := p.1, bytes_allocated := vm.bytes_allocated - p.2 }

/-- vm_collect_garbage: mark, trace, prune the intern table, sweep, then
reset the trigger threshold. -/
def vm_collect_garbage (vm : VM) : VM :=
  let vm1 := mark_roots vm
  let vm2 := trace_references vm1
  let vm3 := table_remove_white vm2
  let vm4 := sweep vm3
  let target := vm4.bytes_allocated * 2
  { vm4 with next_gc := if target < 1024 then 1024 else target }

end Vibelang

namespace Vibelang

/-! ## Interpreter loop (vm.c)

Opcode byte values follow the chunk.h enumeration; the class-era opcodes
extend it (their concrete numbers are interchangeable, both producer and
consumer below use these constants). -/

def opLOAD_CONST : Nat := 0
def opLOAD_NULL : Nat := 1
def opLOAD_TRUE : Nat := 2
def opLOAD_FALSE : Nat := 3
def opMOVE : Nat := 4
def opADD : Nat := 5
def opSUBTRACT : Nat := 6
def opMULTIPLY : Nat := 7
def opDIVIDE : Nat := 8
def opNEGATE : Nat := 9
def opNOT : Nat := 10
def opEQUAL : Nat := 11
def opGREATER : Nat := 12
def opLESS : Nat := 13
def opJUMP : Nat := 14
def opJUMP_IF_FALSE : Nat := 15
def opLOOP : Nat := 16
def opCALL : Nat := 17
def opRETURN : Nat := 18
def opGET_GLOBAL : Nat := 19
def opDEFINE_GLOBAL : Nat := 20
def opSET_GLOBAL : Nat := 21
def opBUILD_ARRAY : Nat := 22
def opARRAY_GET : Nat := 23
def opGET_PROPERTY : Nat := 24
def opSET_PROPERTY : Nat := 25
def opCLASS : Nat := 26
def opMETHOD : Nat := 27
def opINVOKE : Nat := 28

inductive InterpretResult where
  | INTERPRET_OK
  | INTERPRET_RUNTIME_ERROR
  deriving DecidableEq, Repr

/-- vm_reset_stack: empty the live stack and drop all frames (the physical
backing store is retained, as in C). -/
def vm_reset_stack (vm : VM) : VM := { vm with stack_top := 0, frames := [] }

/-- Arity, register count, chunk and name of the function object `fid`. -/
def as_function (vm : VM) (fid : ObjId) : Option (Nat × Nat × RtChunk × Option ObjId) :=
  match heapFind vm.objects fid with
  | some o =>
    match o.data with
    | .ofun a r c n => some (a, r, c, n)
    | _ => none
  | none => none

/-- The `[line L] in NAME` pair one stack-trace line reports for a frame:
L is the line-table entry at the last byte consumed (ip - 1, clamped into
the chunk, defaulting to 0), NAME the function's name or `<script>`. -/
def frame_trace_line (objects : List HeapObj) (f : CallFrame) : Nat × List Char :=
  match heapFind objects f.function with
  | some o =>
    match o.data with
    | .ofun _ _ chunk name =>
      let idx := if f.ip > 0 then f.ip - 1 else f.ip
      let line := if idx < chunk.code.length then chunk.lines.getD idx 0 else 0
      let nm := match name with
        | some nid =>
          match strContents objects nid with
          | some cs => cs
          | none => "<script>".toList
        | none => "<script>".toList
      (line, nm)
    | _ => (0, "<script>".toList)
  | none => (0, "<script>".toList)

/-- The `for (i = frame_count - 1; i >= 0; --i)` loop of runtime_error:
one line per frame, innermost first. -/
def runtime_error_lines (objects : List HeapObj) : List CallFrame → List (Nat × List Char)
  | [] => []
  | f :: rest => runtime_error_lines objects rest ++ [frame_trace_line objects f]

/-- What one runtime error prints (message plus stack trace) and the state
it leaves behind (stack and frames reset). -/
abbrev RunErr := String × List (Nat × List Char)

def runtime_error (vm : VM) (msg : String) : RunErr × VM :=
  ((msg, runtime_error_lines vm.objects vm.frames), vm_reset_stack vm)

def regGet (vm : VM) (base r : Nat) : Value := vm.stack.getD (base + r) .vnull

def regSet (vm : VM) (base r : Nat) (v : Value) : VM :=
  { vm with stack := stack_write vm.stack (base + r) v }

/-- call_function: arity and register checks, zero-fill the fresh register
window at the stack top, copy arguments from the caller's registers, and
push the new frame. -/
def call_function (vm : VM) (caller : Option CallFrame) (fid : ObjId)
    (dest_reg : Nat) (args : List Nat) : Except (RunErr × VM) VM :=
  match as_function vm fid with
  | none => .error (runtime_error vm "call_function on a non-function object")
  | some (arity, register_count, _, _) =>
    if arity ≠ args.length then
      .error (runtime_error vm "Incorrect number of arguments.")
    else if register_count < arity then
      .error (runtime_error vm "Function does not provide enough registers for its parameters.")
    else
      let base := vm.stack_top
      let vm1 := (List.range register_count).foldl
        (fun (s : VM) i => { s with stack := stack_write s.stack (base + i) Value.vnull }) vm
      let vm2 := match caller with
        | some c =>
          (List.range args.length).foldl
            (fun (s : VM) i =>
              { s with stack := stack_write s.stack (base + i) (regGet s c.base (args.getD i 0)) })
            vm1
        | none => vm1
      let fr : CallFrame :=
        ⟨fid, 0, base, caller.map (fun c => c.base), dest_reg⟩
      .ok { vm2 with frames := vm2.frames ++ [fr], stack_top := base + register_count }

/-- call_value: dispatch over bound methods, classes and plain functions;
anything else is a runtime error. -/
def call_value (vm : VM) (caller : Option CallFrame) (dest_reg : Nat)
    (callee : Value) (args : List Nat) : Except (RunErr × VM) VM :=
  match callee with
  | .vobj id =>
    match heapFind vm.objects id with
    | some o =>
      match o.data with
      | .obound receiver mid =>
        match as_function vm mid with
        | some (arity, _, _, _) =>
          if (args.length % 256) ≠ (((arity : Int) - 1) % 256).toNat then
            .error (runtime_error vm "Incorrect number of arguments.")
          else
            match caller with
            | none => .error (runtime_error vm "Invalid call context.")
            | some c =>
              let vm1 := { vm with stack := stack_write vm.stack (c.base + dest_reg) receiver }
              call_function vm1 (some c) mid dest_reg (dest_reg :: args)
        | none => .error (runtime_error vm "call_function on a non-function object")
      | .ocls _ _ =>
        match caller with
        | none => .error (runtime_error vm "Cannot instantiate class in this context.")
        | some c =>
          let p := obj_instance_new vm id
          let vm1 := { p.1 with stack := stack_write p.1.stack (c.base + dest_reg) (.vobj p.2) }
          let q := obj_string_copy vm1 ("constructor".toList)
          match obj_class_find_method q.1 id q.2 with
          | some mv =>
            match mv with
            | .vobj mid =>
              match as_function q.1 mid with
              | some (arity, _, _, _) =>
                if ((args.length + 1) % 256) ≠ (arity % 256) then
                  .error (runtime_error q.1 "Incorrect number of arguments.")
                else
                  call_function q.1 (some c) mid dest_reg (dest_reg :: args)
              | none => .error (runtime_error q.1 "Constructor is not callable.")
            | _ => .error (runtime_error q.1 "Constructor is not callable.")
          | none =>
            if args.length > 0 then .error (runtime_error q.1 "Constructor not defined.")
            else .ok q.1
      | .ofun _ _ _ _ => call_function vm caller id dest_reg args
      | _ => .error (runtime_error vm "Attempted to call a non-function value.")
    | none => .error (runtime_error vm "Attempted to call a non-function value.")
  | _ => .error (runtime_error vm "Attempted to call a non-function value.")

def arrayElems (objects : List HeapObj) : Value → Option (List Value)
  | .vobj id =>
    match heapFind objects id with
    | some o =>
      match o.data with
      | .oarr es => some es
      | _ => none
    | none => none
  | _ => none

def strBytes (objects : List HeapObj) : Value → Option (List Char)
  | .vobj id => strContents objects id
  | _ => none

/-- concatenate from vm.c: intern the byte concatenation of two strings;
`none` is the both-operands-must-be-strings guard. -/
def concatenate (vm : VM) (a b : Value) : Option (VM × Value) :=
  match strBytes vm.objects a, strBytes vm.objects b with
  | some ca, some cb =>
    let p := obj_string_take vm (ca ++ cb)
    some (p.1, .vobj p.2)
  | _, _ => none

/-- The OP_ADD arm of run: array concatenation or append builds a fresh
array from a copy of the left operand (kept on the stack across the heap
operations); string + string interns the concatenation; number + number
adds; every other combination raises a runtime error. -/
def op_add (vm : VM) (a b : Value) : Except (String × VM) (VM × Value) :=
  match arrayElems vm.objects a with
  | some aElems =>
    let p := obj_array_copy vm aElems
    let vm2 := vm_push p.1 (.vobj p.2)
    match arrayElems vm2.objects b with
    | some bElems =>
      match obj_array_extend vm2 p.2 bElems with
      | some vm3 => .ok ((vm_pop vm3).1, .vobj p.2)
      | none => .error ("Failed to extend array.", (vm_pop vm2).1)
    | none =>
      match obj_array_append vm2 p.2 b with
      | some vm3 => .ok ((vm_pop vm3).1, .vobj p.2)
      | none => .error ("Failed to append to array.", (vm_pop vm2).1)
  | none =>
    if (arrayElems vm.objects b).isSome then
      .error ("Left operand must be an array for array addition.", vm)
    else
      match concatenate vm a b with
      | some r => .ok r
      | none =>
        match a, b with
        | .vnum x, .vnum y => .ok (vm, .vnum (x + y))
        | _, _ => .error ("Operands must be numbers or strings.", vm)

/-- The OP_ARRAY_GET arm of run.  (double)SIZE_MAX rounds to 2^64, and the
size_t cast of a non-negative double is its floor. -/
def op_array_get (vm : VM) (array_value index_value : Value) : Except String Value :=
  match arrayElems vm.objects array_value with
  | none => .error "Operand is not an array."
  | some elems =>
    match index_value with
    | .vnum q =>
      if q < 0 ∨ ((2 ^ 64 : ℕ) : ℚ) < q then .error "Array index out of bounds."
      else
        let index : Nat := (Rat.floor q).toNat
        if (index : ℚ) ≠ q then .error "Array index must be an integer."
        else if elems.length ≤ index then .error "Array index out of range."
        else .ok (elems.getD index .vnull)
    | _ => .error "Array index must be a number."

def chunk_get_constant (chunk : RtChunk) (idx : Nat) : Value :=
  chunk.constants.getD idx .vnull

end Vibelang

namespace Vibelang

def instanceView (objects : List HeapObj) : Value → Option (ObjId × ObjId × List (ObjId × Value))
  | .vobj id =>
    match heapFind objects id with
    | some o =>
      match o.data with
      | .oinst k fs => some (id, k, fs)
      | _ => none
    | none => none
  | _ => none

def classView (objects : List HeapObj) : Value → Option (ObjId × List (ObjId × Value))
  | .vobj id =>
    match heapFind objects id with
    | some o =>
      match o.data with
      | .ocls _ ms => some (id, ms)
      | _ => none
    | none => none
  | _ => none

def functionId (objects : List HeapObj) : Value → Option ObjId
  | .vobj id =>
    match heapFind objects id with
    | some o => if o.data.isFun then some id else none
    | none => none
  | _ => none

def stringId (objects : List HeapObj) : Value → Option ObjId
  | .vobj id =>
    match heapFind objects id with
    | some o => if o.data.isStr then some id else none
    | none => none
  | _ => none

/-- Everything one interpretation produces: the returned status (`none`
models exhausted fuel, which cannot happen to the real loop), the result
value on OK, the error report on failure, the final VM state, and the
count of dispatched instructions (ghost instrumentation; no observable
effect on the state). -/
structure RunOutcome where
  status : Option InterpretResult
  result : Option Value
  err : Option RunErr
  vm : VM
  steps : Nat
  deriving DecidableEq, Repr

def run_err (vm : VM) (msg : String) (steps : Nat) : RunOutcome :=
  let e := runtime_error vm msg
  ⟨some .INTERPRET_RUNTIME_ERROR, none, some e.1, e.2, steps⟩

def run_oof (vm : VM) (steps : Nat) : RunOutcome := ⟨none, none, none, vm, steps⟩

/-- The dispatch loop of vm.c, one fuel unit per dispatched instruction.
Each arm first advances the stored ip past the operand bytes it read
(mirroring the in-place reads through frame->ip), then acts. -/
def run : Nat → VM → Nat → RunOutcome
  | 0, vm, steps => run_oof vm steps
  | fuel + 1, vm, steps =>
    match vm.frames.getLast? with
    | none => run_oof vm steps
    | some frame =>
      match as_function vm frame.function with
      | none => run_oof vm steps
      | some (_, _, chunk, _) =>
        let b : Nat → Nat := fun k => chunk.code.getD (frame.ip + k) 0
        let s16 : Nat → Nat := fun k => b k * 256 + b (k + 1)
        let base := frame.base
        let adv : Nat → VM × CallFrame := fun n =>
          let fr := { frame with ip := frame.ip + n }
          ({ vm with frames := vm.frames.dropLast ++ [fr] }, fr)
        let op := b 0
        if op = opLOAD_CONST then
          let p := adv 4
          run fuel (regSet p.1 base (b 1) (chunk_get_constant chunk (s16 2))) (steps + 1)
        else if op = opLOAD_NULL then
          let p := adv 2
          run fuel (regSet p.1 base (b 1) .vnull) (steps + 1)
        else if op = opLOAD_TRUE then
          let p := adv 2
          run fuel (regSet p.1 base (b 1) (.vbool true)) (steps + 1)
        else if op = opLOAD_FALSE then
          let p := adv 2
          run fuel (regSet p.1 base (b 1) (.vbool false)) (steps + 1)
        else if op = opMOVE then
          let p := adv 3
          run fuel (regSet p.1 base (b 1) (regGet p.1 base (b 2))) (steps + 1)
        else if op = opADD then
          let p := adv 4
          match op_add p.1 (regGet p.1 base (b 2)) (regGet p.1 base (b 3)) with
          | .ok r => run fuel (regSet r.1 base (b 1) r.2) (steps + 1)
          | .error e => run_err e.2 e.1 (steps + 1)
        else if op = opSUBTRACT then
          let p := adv 4
          match regGet p.1 base (b 2), regGet p.1 base (b 3) with
          | .vnum x, .vnum y => run fuel (regSet p.1 base (b 1) (.vnum (x - y))) (steps + 1)
          | _, _ => run_err p.1 "Operands must be numbers." (steps + 1)
        else if op = opMULTIPLY then
          let p := adv 4
          match regGet p.1 base (b 2), regGet p.1 base (b 3) with
          | .vnum x, .vnum y => run fuel (regSet p.1 base (b 1) (.vnum (x * y))) (steps + 1)
          | _, _ => run_err p.1 "Operands must be numbers." (steps + 1)
        else if op = opDIVIDE then
          let p := adv 4
          match regGet p.1 base (b 2), regGet p.1 base (b 3) with
          | .vnum x, .vnum y => run fuel (regSet p.1 base (b 1) (.vnum (x / y))) (steps + 1)
          | _, _ => run_err p.1 "Operands must be numbers." (steps + 1)
        else if op = opEQUAL then
          let p := adv 4
          let r := value_equals p.1.objects (regGet p.1 base (b 2)) (regGet p.1 base (b 3))
          run fuel (regSet p.1 base (b 1) (.vbool r)) (steps + 1)
        else if op = opGREATER then
          let p := adv 4
          match regGet p.1 base (b 2), regGet p.1 base (b 3) with
          | .vnum x, .vnum y =>
            run fuel (regSet p.1 base (b 1) (.vbool (decide (y < x)))) (steps + 1)
          | _, _ => run_err p.1 "Operands must be numbers." (steps + 1)
        else if op = opLESS then
          let p := adv 4
          match regGet p.1 base (b 2), regGet p.1 base (b 3) with
          | .vnum x, .vnum y =>
            run fuel (regSet p.1 base (b 1) (.vbool (decide (x < y)))) (steps + 1)
          | _, _ => run_err p.1 "Operands must be numbers." (steps + 1)
        else if op = opNOT then
          let p := adv 3
          run fuel (regSet p.1 base (b 1) (.vbool (!value_is_truthy (regGet p.1 base (b 2))))) (steps + 1)
        else if op = opNEGATE then
          let p := adv 3
          match regGet p.1 base (b 2) with
          | .vnum x => run fuel (regSet p.1 base (b 1) (.vnum (-x))) (steps + 1)
          | _ => run_err p.1 "Operand must be a number." (steps + 1)
        else if op = opJUMP then
          let p := adv (3 + s16 1)
          run fuel p.1 (steps + 1)
        else if op = opJUMP_IF_FALSE then
          let off := if value_is_truthy (regGet vm base (b 1)) then 0 else s16 2
          let p := adv (4 + off)
          run fuel p.1 (steps + 1)
        else if op = opLOOP then
          let fr := { frame with ip := frame.ip + 3 - s16 1 }
          run fuel { vm with frames := vm.frames.dropLast ++ [fr] } (steps + 1)
        else if op = opCALL then
          let argc := b 3
          let args := (List.range argc).map (fun i => b (4 + i))
          let p := adv (4 + argc)
          let callee := regGet p.1 base (b 2)
          match call_value p.1 (some p.2) (b 1) callee args with
          | .ok vmB => run fuel vmB (steps + 1)
          | .error e => ⟨some .INTERPRET_RUNTIME_ERROR, none, some e.1, e.2, steps + 1⟩
        else if op = opRETURN then
          let p := adv 2
          let result := regGet p.1 base (b 1)
          let remaining := p.1.frames.dropLast
          if remaining.isEmpty then
            ⟨some .INTERPRET_OK, some result, none,
              vm_reset_stack { p.1 with frames := remaining, stack_top := base }, steps + 1⟩
          else
            match remaining.getLast? with
            | some caller =>
              let vm1 := { p.1 with frames := remaining, stack_top := base }
              let vm2 := match p.2.caller_base with
                | some cb => { vm1 with stack := stack_write vm1.stack (cb + p.2.return_reg) result }
                | none => vm1
              let crc := match as_function vm2 caller.function with
                | some (_, rc, _, _) => rc
                | none => 0
              run fuel { vm2 with stack_top := caller.base + crc } (steps + 1)
            | none => run_oof p.1 (steps + 1)
        else if op = opGET_GLOBAL then
          let p := adv 4
          let slot := s16 2
          if slot < p.1.globals.length ∧ (p.1.globals.getD slot (.vnull, false)).2 then
            run fuel (regSet p.1 base (b 1) (p.1.globals.getD slot (.vnull, false)).1) (steps + 1)
          else run_err p.1 "Undefined global variable." (steps + 1)
        else if op = opDEFINE_GLOBAL then
          let p := adv 4
          let slot := s16 2
          let gs0 := p.1.globals
          let gs1 := if gs0.length < slot + 1 then
              gs0 ++ List.replicate (slot + 1 - gs0.length) ((.vnull : Value), false)
            else gs0
          run fuel { p.1 with globals := gs1.set slot (regGet p.1 base (b 1), true) } (steps + 1)
        else if op = opSET_GLOBAL then
          let p := adv 4
          let slot := s16 2
          if slot < p.1.globals.length ∧ (p.1.globals.getD slot (.vnull, false)).2 then
            run fuel { p.1 with globals := p.1.globals.set slot (regGet p.1 base (b 1), true) } (steps + 1)
          else run_err p.1 "Undefined global variable." (steps + 1)
        else if op = opBUILD_ARRAY then
          let n := b 2
          let p := adv (3 + n)
          let q := obj_array_new p.1
          let vmP := vm_push q.1 (.vobj q.2)
          let vmF := (List.range n).foldl
            (fun (s : VM) i =>
              match obj_array_append s q.2 (regGet s base (b (3 + i))) with
              | some s2 => s2
              | none => s) vmP
          run fuel ((vm_pop (regSet vmF base (b 1) (.vobj q.2))).1) (steps + 1)
        else if op = opARRAY_GET then
          let p := adv 4
          match op_array_get p.1 (regGet p.1 base (b 2)) (regGet p.1 base (b 3)) with
          | .ok v => run fuel (regSet p.1 base (b 1) v) (steps + 1)
          | .error msg => run_err p.1 msg (steps + 1)
        else if op = opGET_PROPERTY then
          let p := adv 5
          let dest := b 1
          let object := regGet p.1 base (b 2)
          match stringId p.1.objects (chunk_get_constant chunk (s16 3)) with
          | none => run_err p.1 "Property name must be a string constant." (steps + 1)
          | some nid =>
            match instanceView p.1.objects object with
            | some iv =>
              match obj_instance_get_field p.1 iv.1 nid with
              | some field => run fuel (regSet p.1 base dest field) (steps + 1)
              | none =>
                match obj_class_find_method p.1 iv.2.1 nid with
                | some mv =>
                  match functionId p.1.objects mv with
                  | none => run_err p.1 "Method value is not callable." (steps + 1)
                  | some mid =>
                    let q := obj_bound_method_new p.1 object mid
                    run fuel (regSet q.1 base dest (.vobj q.2)) (steps + 1)
                | none => run_err p.1 "Undefined property on instance." (steps + 1)
            | none =>
              match classView p.1.objects object with
              | some cv =>
                match find_method_list cv.2 nid with
                | some mv => run fuel (regSet p.1 base dest mv) (steps + 1)
                | none => run_err p.1 "Undefined property on class." (steps + 1)
              | none => run_err p.1 "Only instances and classes have properties." (steps + 1)
        else if op = opSET_PROPERTY then
          let p := adv 5
          let object := regGet p.1 base (b 1)
          match stringId p.1.objects (chunk_get_constant chunk (s16 2)) with
          | none => run_err p.1 "Property name must be a string constant." (steps + 1)
          | some nid =>
            match instanceView p.1.objects object with
            | none => run_err p.1 "Only instances have fields." (steps + 1)
            | some iv =>
              match obj_instance_set_field p.1 iv.1 nid (regGet p.1 base (b 4)) with
              | some vmB => run fuel vmB (steps + 1)
              | none => run_err p.1 "Failed to set instance field." (steps + 1)
        else if op = opCLASS then
          let p := adv 4
          match stringId p.1.objects (chunk_get_constant chunk (s16 2)) with
          | none => run_err p.1 "Class name must be a string." (steps + 1)
          | some nid =>
            let q := obj_class_new p.1 nid
            run fuel (regSet q.1 base (b 1) (.vobj q.2)) (steps + 1)
        else if op = opMETHOD then
          let p := adv 5
          match classView p.1.objects (regGet p.1 base (b 1)) with
          | none => run_err p.1 "OP_METHOD target is not a class." (steps + 1)
          | some cv =>
            match stringId p.1.objects (chunk_get_constant chunk (s16 2)) with
            | none => run_err p.1 "Method name must be a string." (steps + 1)
            | some nid =>
              match obj_class_define_method p.1 cv.1 nid (regGet p.1 base (b 4)) with
              | some vmB => run fuel vmB (steps + 1)
              | none => run_err p.1 "Failed to define method." (steps + 1)
        else if op = opINVOKE then
          let argc := b 5
          let args := (List.range argc).map (fun i => b (6 + i))
          let p := adv (6 + argc)
          let dest := b 1
          let receiver := regGet p.1 base (b 2)
          match stringId p.1.objects (chunk_get_constant chunk (s16 3)) with
          | none => run_err p.1 "Method name must be a string." (steps + 1)
          | some nid =>
            match instanceView p.1.objects receiver with
            | some iv =>
              match obj_instance_get_field p.1 iv.1 nid with
              | some field =>
                match call_value p.1 (some p.2) dest field args with
                | .ok vmB => run fuel vmB (steps + 1)
                | .error e => ⟨some .INTERPRET_RUNTIME_ERROR, none, some e.1, e.2, steps + 1⟩
              | none =>
                match obj_class_find_method p.1 iv.2.1 nid with
                | none => run_err p.1 "Undefined method on instance." (steps + 1)
                | some mv =>
                  match functionId p.1.objects mv with
                  | none => run_err p.1 "Method value is not callable." (steps + 1)
                  | some mid =>
                    let q := obj_bound_method_new p.1 receiver mid
                    let bv := Value.vobj q.2
                    let vmP := regSet (vm_push q.1 bv) base dest bv
                    match call_value vmP (some p.2) dest bv args with
                    | .ok vmB => run fuel ((vm_pop vmB).1) (steps + 1)
                    | .error e =>
                      ⟨some .INTERPRET_RUNTIME_ERROR, none, some e.1, (vm_pop e.2).1, steps + 1⟩
            | none =>
              match classView p.1.objects receiver with
              | some cv =>
                match find_method_list cv.2 nid with
                | none => run_err p.1 "Undefined method on class." (steps + 1)
                | some mv =>
                  match call_value p.1 (some p.2) dest mv args with
                  | .ok vmB => run fuel vmB (steps + 1)
                  | .error e => ⟨some .INTERPRET_RUNTIME_ERROR, none, some e.1, e.2, steps + 1⟩
              | none => run_err p.1 "Only instances and classes have methods." (steps + 1)
        else
          run_err (adv 1).1 "Unknown opcode." (steps + 1)

/-- vm_interpret: reject functions of nonzero arity before any dispatch,
otherwise reset the stack, push the function as a GC root, set up the
initial frame and enter the loop. -/
def vm_interpret (vm : VM) (fid : ObjId) (fuel : Nat) : RunOutcome :=
  match as_function vm fid with
  | none => ⟨some .INTERPRET_RUNTIME_ERROR, none, none, vm, 0⟩
  | some (arity, _, _, _) =>
    if arity ≠ 0 then
      let e := runtime_error vm "Can only directly interpret zero-arity functions."
      ⟨some .INTERPRET_RUNTIME_ERROR, none, some e.1, e.2, 0⟩
    else
      let vm1 := vm_push (vm_reset_stack vm) (.vobj fid)
      match call_function vm1 none fid 0 [] with
      | .error e => ⟨some .INTERPRET_RUNTIME_ERROR, none, some e.1, e.2, 0⟩
      | .ok vm2 => run fuel vm2 0

end Vibelang

namespace Vibelang

/-! ## Abstract syntax (parser.h) -/

inductive UnaryOp where
  | uMINUS
  | uBANG
  deriving DecidableEq, Repr

inductive BinaryOp where
  | bPLUS
  | bMINUS
  | bSTAR
  | bSLASH
  | bGREATER
  | bGREATER_EQUAL
  | bLESS
  | bLESS_EQUAL
  | bEQUAL_EQUAL
  | bBANG_EQUAL
  deriving DecidableEq, Repr

mutual

inductive Expression where
  | numberLit (value : ℚ)
  | stringLit (value : String)
  | boolLit (value : Bool)
  | nullLit
  | identifier (name : String)
  | unary (op : UnaryOp) (right : Expression)
  | binary (op : BinaryOp) (left right : Expression)
  | assignment (name : String) (value : Expression)
  | call (callee : Expression) (args : List Expression)
  | arrayLit (elements : List Expression)
  | indexed (array index : Expression)
  | thisE
  | getProp (object : Expression) (name : String)
  | setProp (object : Expression) (name : String) (value : Expression)
  | invoke (object : Expression) (name : String) (args : List Expression)

inductive Statement where
  | letS (name : String) (initializer : Option Expression)
  | exprS (e : Expression)
  | ifS (condition : Expression) (then_branch : Statement) (else_branch : Option Statement)
  | whileS (condition : Expression) (body : Statement)
  | blockS (statements : List Statement)
  | functionS (name : String) (params : List String) (body : Option Statement)
  | returnS (value : Option Expression)
  | classS (name : String) (methods : List ClassMethod)

inductive ClassMethod where
  | mk (name : String) (is_constructor : Bool) (params : List String) (body : Option Statement)

end

def ClassMethod.name : ClassMethod → String
  | .mk n _ _ _ => n

def ClassMethod.is_constructor : ClassMethod → Bool
  | .mk _ b _ _ => b

def ClassMethod.params : ClassMethod → List String
  | .mk _ _ ps _ => ps

def ClassMethod.body : ClassMethod → Option Statement
  | .mk _ _ _ b => b

/-! ## Compiler (compiler.c)

Compile-time constant-pool values: numbers, interned strings (kept as
their byte content), and finished nested functions. -/

inductive CVal where
  | cnum (q : ℚ)
  | cstr (s : String)
  | cfun (name : Option String) (arity : Nat) (register_count : Nat)
      (code : List Nat) (lines : List Nat) (constants : List CVal)

/-- The ObjFunction a compiler writes into (arity fixed at creation,
register_count/chunk filled during compilation). -/
structure CFn where
  name : Option String
  arity : Nat
  register_count : Nat
  code : List Nat
  lines : List Nat
  constants : List CVal

def CFn.toCVal (f : CFn) : CVal :=
  .cfun f.name f.arity f.register_count f.code f.lines f.constants

inductive FunctionType where
  | FUNCTION_TYPE_SCRIPT
  | FUNCTION_TYPE_FUNCTION
  | FUNCTION_TYPE_METHOD
  | FUNCTION_TYPE_INITIALIZER
  deriving DecidableEq, Repr

structure Local where
  name : String
  depth : Int
  is_initialized : Bool
  reg : Int
  deriving DecidableEq, Repr

structure RegisterResult where
  reg : Int
  is_temp : Bool
  deriving DecidableEq, Repr

def register_result_invalid : RegisterResult := ⟨-1, false⟩

/-- One Compiler record of compiler.c; `enclosing` abstracts the parent
pointer to the only fact the code consults (is it NULL), and `globals` is
the Compilation-wide table threaded through nested compilers. -/
structure Compiler where
  enclosing : Bool
  func : CFn
  globals : List String
  locals : List Local
  scope_depth : Int
  has_pending_expression : Bool
  stack_depth : Int
  pending_has_value : Bool
  pending_value : RegisterResult
  type : FunctionType

def compiler_init (enclosing : Bool) (globals : List String) (func : CFn)
    (type : FunctionType) : Compiler :=
  ⟨enclosing, { func with register_count := 0 }, globals, [], 0, false, 0, false,
    register_result_invalid, type⟩

/-- Casting an int register index to the uint8 operand byte. -/
def byte8 (i : Int) : Nat := (i % 256).toNat

/-- emit_byte: chunk_write with line 0. -/
def emit_byte (c : Compiler) (byte : Nat) : Compiler :=
  { c with func := { c.func with
      code := c.func.code ++ [byte]
      lines := c.func.lines ++ [0] } }

/-- chunk_add_constant (the too-many-constants case aborts the process in
C and is not modelled). -/
def chunk_add_constant (c : Compiler) (v : CVal) : Compiler × Nat :=
  ({ c with func := { c.func with constants := c.func.constants ++ [v] } },
    c.func.constants.length)

def update_register_usage (c : Compiler) : Except String Compiler := do
  let total : Int := c.locals.length + c.stack_depth
  let c := if total > (c.func.register_count : Int) then
      { c with func := { c.func with register_count := total.toNat } }
    else c
  if c.func.register_count > 255 then
    throw "Function requires more than 255 registers."
  return c

def stack_base (c : Compiler) : Int := c.locals.length

def stack_register (c : Compiler) (depth_index : Int) : Int :=
  stack_base c + depth_index

def stack_top_register (c : Compiler) (distance : Int) : Int :=
  stack_register c (c.stack_depth - 1 - distance)

def push_stack_slot (c : Compiler) : Except String (Compiler × Int) := do
  let dest := stack_register c c.stack_depth
  let c := { c with stack_depth := c.stack_depth + 1 }
  let c ← update_register_usage c
  return (c, dest)

def pop_stack_slots (c : Compiler) (count : Int) : Compiler :=
  let d := c.stack_depth - count
  { c with stack_depth := if d < 0 then 0 else d }

def emit_op_load_constant (c : Compiler) (dest : Int) (v : CVal) : Compiler :=
  let p := chunk_add_constant c v
  let c := emit_byte p.1 opLOAD_CONST
  let c := emit_byte c (byte8 dest)
  let c := emit_byte c ((p.2 / 256) % 256)
  emit_byte c (p.2 % 256)

def emit_op_load_null (c : Compiler) (dest : Int) : Compiler :=
  emit_byte (emit_byte c opLOAD_NULL) (byte8 dest)

def emit_op_load_bool (c : Compiler) (dest : Int) (value : Bool) : Compiler :=
  emit_byte (emit_byte c (if value then opLOAD_TRUE else opLOAD_FALSE)) (byte8 dest)

def emit_op_move (c : Compiler) (dest src : Int) : Compiler :=
  emit_byte (emit_byte (emit_byte c opMOVE) (byte8 dest)) (byte8 src)

def emit_op_unary (c : Compiler) (opcode : Nat) (dest operand : Int) : Compiler :=
  emit_byte (emit_byte (emit_byte c opcode) (byte8 dest)) (byte8 operand)

def emit_op_binary (c : Compiler) (opcode : Nat) (dest left right : Int) : Compiler :=
  emit_byte (emit_byte (emit_byte (emit_byte c opcode) (byte8 dest)) (byte8 left)) (byte8 right)

def emit_short (c : Compiler) (v : Nat) : Compiler :=
  emit_byte (emit_byte c ((v / 256) % 256)) (v % 256)

def emit_op_get_global (c : Compiler) (dest : Int) (slot : Nat) : Compiler :=
  emit_short (emit_byte (emit_byte c opGET_GLOBAL) (byte8 dest)) slot

def emit_op_set_global (c : Compiler) (src : Int) (slot : Nat) : Compiler :=
  emit_short (emit_byte (emit_byte c opSET_GLOBAL) (byte8 src)) slot

def emit_op_define_global (c : Compiler) (src : Int) (slot : Nat) : Compiler :=
  emit_short (emit_byte (emit_byte c opDEFINE_GLOBAL) (byte8 src)) slot

def emit_op_call (c : Compiler) (dest callee : Int) (args : List Int) : Compiler :=
  let c := emit_byte (emit_byte (emit_byte c opCALL) (byte8 dest)) (byte8 callee)
  let c := emit_byte c (args.length % 256)
  args.foldl (fun s a => emit_byte s (byte8 a)) c

def emit_op_build_array (c : Compiler) (dest : Int) (elements : List Int) : Compiler :=
  let c := emit_byte (emit_byte c opBUILD_ARRAY) (byte8 dest)
  let c := emit_byte c (elements.length % 256)
  elements.foldl (fun s a => emit_byte s (byte8 a)) c

def emit_op_array_get (c : Compiler) (dest array_reg index_reg : Int) : Compiler :=
  emit_op_binary c opARRAY_GET dest array_reg index_reg

/-- make_string_constant: the interned name string becomes a constant-pool
entry (interning itself lives in the VM heap and is irrelevant to the
emitted code, so the constant carries the bytes). -/
def make_string_constant (c : Compiler) (text : String) : Compiler × Nat :=
  chunk_add_constant c (.cstr text)

def emit_op_class (c : Compiler) (dest : Int) (name_index : Nat) : Compiler :=
  emit_short (emit_byte (emit_byte c opCLASS) (byte8 dest)) name_index

def emit_op_method (c : Compiler) (class_reg : Int) (name_index : Nat) (method_reg : Int) : Compiler :=
  emit_byte (emit_short (emit_byte (emit_byte c opMETHOD) (byte8 class_reg)) name_index) (byte8 method_reg)

def emit_op_get_property (c : Compiler) (dest object_reg : Int) (name_index : Nat) : Compiler :=
  emit_short (emit_byte (emit_byte (emit_byte c opGET_PROPERTY) (byte8 dest)) (byte8 object_reg)) name_index

def emit_op_set_property (c : Compiler) (object_reg : Int) (name_index : Nat) (value_reg : Int) : Compiler :=
  emit_byte (emit_short (emit_byte (emit_byte c opSET_PROPERTY) (byte8 object_reg)) name_index) (byte8 value_reg)

def emit_op_invoke (c : Compiler) (dest object_reg : Int) (name_index : Nat) (args : List Int) : Compiler :=
  let c := emit_byte (emit_byte (emit_byte c opINVOKE) (byte8 dest)) (byte8 object_reg)
  let c := emit_short c name_index
  let c := emit_byte c (args.length % 256)
  args.foldl (fun s a => emit_byte s (byte8 a)) c

def emit_jump_unconditional (c : Compiler) : Compiler × Nat :=
  let c := emit_byte (emit_byte (emit_byte c opJUMP) 255) 255
  (c, c.func.code.length - 2)

def emit_jump_if_false (c : Compiler) (condition_reg : Int) : Compiler × Nat :=
  let c := emit_byte (emit_byte (emit_byte (emit_byte c opJUMP_IF_FALSE) (byte8 condition_reg)) 255) 255
  (c, c.func.code.length - 2)

def patch_jump (c : Compiler) (offset : Nat) : Except String Compiler := do
  let jump : Int := (c.func.code.length : Int) - offset - 2
  if jump < 0 ∨ jump > 65535 then
    throw "Jump offset out of range."
  let j := jump.toNat
  return { c with func := { c.func with
    code := (c.func.code.set offset ((j / 256) % 256)).set (offset + 1) (j % 256) } }

def emit_loop_instruction (c : Compiler) (loop_start : Nat) : Except String Compiler := do
  let c := emit_byte (emit_byte (emit_byte c opLOOP) 0) 0
  let offset : Int := (c.func.code.length : Int) - loop_start
  if offset < 0 ∨ offset > 65535 then
    throw "Loop body too large."
  let j := offset.toNat
  let n := c.func.code.length
  return { c with func := { c.func with
    code := (c.func.code.set (n - 2) ((j / 256) % 256)).set (n - 1) (j % 256) } }

def emit_return_value (c : Compiler) (reg : Int) : Compiler :=
  emit_byte (emit_byte c opRETURN) (byte8 reg)

/-- emit_return: the outermost compiler returns a pending trailing
expression when there is one; a constructor returns its receiver
(register slot 0); everything else loads and returns null. -/
def emit_return (c : Compiler) : Except String Compiler := do
  if ¬c.enclosing ∧ c.pending_has_value then
    let c := emit_return_value c c.pending_value.reg
    return { c with pending_has_value := false, has_pending_expression := false, stack_depth := 0 }
  else if c.type = .FUNCTION_TYPE_INITIALIZER ∧ c.locals.length > 0 then
    return emit_return_value c ((c.locals.getD 0 ⟨"", 0, false, 0⟩).reg)
  else
    let p ← push_stack_slot c
    let c := emit_op_load_null p.1 p.2
    let c := emit_return_value c p.2
    return pop_stack_slots c 1

def begin_scope (c : Compiler) : Compiler :=
  { c with scope_depth := c.scope_depth + 1 }

def end_scope (c : Compiler) : Compiler :=
  let c := { c with scope_depth := c.scope_depth - 1 }
  { c with locals :=
      (c.locals.reverse.dropWhile (fun l => l.depth > c.scope_depth)).reverse }

def add_local (c : Compiler) (name : String) : Except String (Compiler × Nat) := do
  if c.locals.length ≥ 256 then
    throw "Too many local variables."
  if c.locals.length ≥ 255 then
    throw "Too many registers required for locals."
  let l : Local := ⟨name, -1, false, (c.locals.length : Int)⟩
  let c := { c with locals := c.locals ++ [l] }
  let c := if c.locals.length > c.func.register_count then
      { c with func := { c.func with register_count := c.locals.length } }
    else c
  if c.func.register_count > 255 then
    throw "Function requires more than 255 registers."
  return (c, c.locals.length - 1)

/-- resolve_local: scan from the innermost local outwards; `none` when the
name is not a local, an error for a read before initialization. -/
def resolve_local (c : Compiler) (name : String) (for_assignment : Bool) :
    Except String (Option Nat) := do
  match c.locals.reverse.findIdx? (fun l => l.name = name) with
  | some k =>
    let i := c.locals.length - 1 - k
    let l := c.locals.getD i ⟨"", 0, false, 0⟩
    if ¬l.is_initialized ∧ ¬for_assignment then
      throw ("Cannot read local variable " ++ name ++ " before initialization.")
    return some i
  | none => return none

def global_table_find (globals : List String) (name : String) : Option Nat :=
  globals.findIdx? (fun g => g = name)

def global_table_add (c : Compiler) (name : String) : Except String (Compiler × Nat) := do
  if (global_table_find c.globals name).isSome then
    throw ("Global " ++ name ++ " already defined.")
  if c.globals.length ≥ 65535 then
    throw "Too many global variables defined."
  return ({ c with globals := c.globals ++ [name] }, c.globals.length)

def discard_pending_expression (c : Compiler) : Compiler :=
  if ¬c.enclosing ∧ c.scope_depth = 0 ∧ c.has_pending_expression then
    let c := pop_stack_slots c 1
    { c with has_pending_expression := false, pending_has_value := false }
  else c

def compile_literal_string (c : Compiler) (text : String) : Except String Compiler := do
  let p ← push_stack_slot c
  return emit_op_load_constant p.1 p.2 (.cstr text)

end Vibelang

namespace Vibelang

def noLocal : Local := ⟨"", 0, false, 0⟩

/-- The duplicate-declaration scan of compile_let_statement, over the
locals from innermost outwards (stop at an initialized outer scope). -/
def let_dup_check : List Local → Int → String → Bool
  | [], _, _ => false
  | l :: rest, sd, name =>
    if l.depth ≠ -1 ∧ l.depth < sd then false
    else if l.name = name then true
    else let_dup_check rest sd name

/-- Mark the local in `slot` as initialized at depth `d`. -/
def local_finish (c : Compiler) (slot : Nat) (d : Int) : Compiler :=
  let l := c.locals.getD slot noLocal
  { c with locals := c.locals.set slot { l with depth := d, is_initialized := true } }

/-- Declare the parameters of a nested function as initialized
depth-0 locals. -/
def add_params (child : Compiler) (params : List String) : Except String Compiler :=
  params.foldlM (fun (s : Compiler) pname => do
    let p ← add_local s pname
    return local_finish p.1 p.2 0) child

mutual

def compile_expression (c : Compiler) (e : Expression) : Except String Compiler := do
  match e with
  | .numberLit v =>
    let p ← push_stack_slot c
    return emit_op_load_constant p.1 p.2 (.cnum v)
  | .stringLit s => compile_literal_string c s
  | .boolLit b =>
    let p ← push_stack_slot c
    return emit_op_load_bool p.1 p.2 b
  | .nullLit =>
    let p ← push_stack_slot c
    return emit_op_load_null p.1 p.2
  | .identifier name =>
    let lcl ← resolve_local c name false
    let p ← push_stack_slot c
    match lcl with
    | some i => return emit_op_move p.1 p.2 ((p.1.locals.getD i noLocal).reg)
    | none =>
      match global_table_find p.1.globals name with
      | some g => return emit_op_get_global p.1 p.2 g
      | none => throw ("Undefined variable " ++ name ++ ".")
  | .unary op right =>
    let c ← compile_expression c right
    let reg := stack_top_register c 0
    match op with
    | .uMINUS => return emit_op_unary c opNEGATE reg reg
    | .uBANG => return emit_op_unary c opNOT reg reg
  | .binary op l r =>
    let c ← compile_expression c l
    let c ← compile_expression c r
    let right_reg := stack_top_register c 0
    let left_reg := stack_top_register c 1
    let dest := left_reg
    match op with
    | .bPLUS => return pop_stack_slots (emit_op_binary c opADD dest left_reg right_reg) 1
    | .bMINUS => return pop_stack_slots (emit_op_binary c opSUBTRACT dest left_reg right_reg) 1
    | .bSTAR => return pop_stack_slots (emit_op_binary c opMULTIPLY dest left_reg right_reg) 1
    | .bSLASH => return pop_stack_slots (emit_op_binary c opDIVIDE dest left_reg right_reg) 1
    | .bGREATER => return pop_stack_slots (emit_op_binary c opGREATER dest left_reg right_reg) 1
    | .bGREATER_EQUAL =>
      let c := pop_stack_slots (emit_op_binary c opLESS dest left_reg right_reg) 1
      return emit_op_unary c opNOT dest dest
    | .bLESS => return pop_stack_slots (emit_op_binary c opLESS dest left_reg right_reg) 1
    | .bLESS_EQUAL =>
      let c := pop_stack_slots (emit_op_binary c opGREATER dest left_reg right_reg) 1
      return emit_op_unary c opNOT dest dest
    | .bEQUAL_EQUAL => return pop_stack_slots (emit_op_binary c opEQUAL dest left_reg right_reg) 1
    | .bBANG_EQUAL =>
      let c := pop_stack_slots (emit_op_binary c opEQUAL dest left_reg right_reg) 1
      return emit_op_unary c opNOT dest dest
  | .assignment name value =>
    let c ← compile_expression c value
    let lcl ← resolve_local c name true
    match lcl with
    | some i =>
      let value_reg := stack_top_register c 0
      return emit_op_move c ((c.locals.getD i noLocal).reg) value_reg
    | none =>
      match global_table_find c.globals name with
      | none => throw ("Undefined variable " ++ name ++ ".")
      | some g =>
        let value_reg := stack_top_register c 0
        return emit_op_set_global c value_reg g
  | .call callee args =>
    let c ← compile_expression c callee
    if args.length > 255 then
      throw "Too many arguments in function call."
    let c ← compile_expr_list c args
    let callee_reg := stack_top_register c (args.length : Int)
    let arg_regs := (List.range args.length).map
      (fun i => stack_top_register c ((args.length : Int) - 1 - i))
    let c := emit_op_call c callee_reg callee_reg arg_regs
    return pop_stack_slots c (args.length : Int)
  | .arrayLit elements =>
    if elements.length > 255 then
      throw "Array literal has too many elements."
    if elements.length = 0 then
      let p ← push_stack_slot c
      return emit_op_build_array p.1 p.2 []
    else
      let c ← compile_expr_list c elements
      let regs := (List.range elements.length).map
        (fun i => stack_top_register c ((elements.length : Int) - 1 - i))
      let dest := regs.getD 0 0
      let c := emit_op_build_array c dest regs
      return pop_stack_slots c ((elements.length : Int) - 1)
  | .indexed arr idx =>
    let c ← compile_expression c arr
    let c ← compile_expression c idx
    let index_reg := stack_top_register c 0
    let array_reg := stack_top_register c 1
    let c := emit_op_array_get c array_reg array_reg index_reg
    return pop_stack_slots c 1
  | .thisE =>
    let lcl ← resolve_local c "this" false
    match lcl with
    | none => throw "Cannot use this outside of class method."
    | some i =>
      let p ← push_stack_slot c
      return emit_op_move p.1 p.2 ((p.1.locals.getD i noLocal).reg)
  | .getProp object name =>
    let c ← compile_expression c object
    let p := make_string_constant c name
    let object_reg := stack_top_register p.1 0
    return emit_op_get_property p.1 object_reg object_reg p.2
  | .setProp object name value =>
    let c ← compile_expression c object
    let c ← compile_expression c value
    let value_reg := stack_top_register c 0
    let object_reg := stack_top_register c 1
    let p := make_string_constant c name
    let c := emit_op_set_property p.1 object_reg p.2 value_reg
    let c := emit_op_move c object_reg value_reg
    return pop_stack_slots c 1
  | .invoke object name args =>
    let c ← compile_expression c object
    if args.length ≥ 255 then
      throw "Too many arguments in method call."
    let c ← compile_expr_list c args
    let p := make_string_constant c name
    let object_reg := stack_top_register p.1 (args.length : Int)
    let arg_regs := (List.range args.length).map
      (fun i => stack_top_register p.1 ((args.length : Int) - 1 - i))
    let c := emit_op_invoke p.1 object_reg object_reg p.2 arg_regs
    return pop_stack_slots c (args.length : Int)

def compile_expr_list (c : Compiler) (es : List Expression) : Except String Compiler := do
  match es with
  | [] => return c
  | e :: rest =>
    let c ← compile_expression c e
    compile_expr_list c rest

def compile_statement (c : Compiler) (s : Statement) : Except String Compiler := do
  let c := match s with
    | .exprS _ => c
    | _ => discard_pending_expression c
  match s with
  | .letS name initializer =>
    if c.scope_depth > 0 then
      if let_dup_check c.locals.reverse c.scope_depth name then
        throw ("Variable " ++ name ++ " already declared in this scope.")
      let p ← add_local c name
      match initializer with
      | some init =>
        let c ← compile_expression p.1 init
        let value_reg := stack_top_register c 0
        let c := emit_op_move c ((c.locals.getD p.2 noLocal).reg) value_reg
        let c := pop_stack_slots c 1
        return local_finish c p.2 c.scope_depth
      | none =>
        let c := emit_op_load_null p.1 ((p.1.locals.getD p.2 noLocal).reg)
        return local_finish c p.2 c.scope_depth
    else
      let p ← global_table_add c name
      match initializer with
      | some init =>
        let c ← compile_expression p.1 init
        let value_reg := stack_top_register c 0
        let c := emit_op_define_global c value_reg p.2
        return pop_stack_slots c 1
      | none =>
        let q ← push_stack_slot p.1
        let c := emit_op_load_null q.1 q.2
        let c := emit_op_define_global c q.2 p.2
        return pop_stack_slots c 1
  | .exprS e =>
    if c.scope_depth = 0 ∧ ¬c.enclosing then
      let c := if c.has_pending_expression then
          { (pop_stack_slots c 1) with
            has_pending_expression := false, pending_has_value := false }
        else c
      let c ← compile_expression c e
      return { c with
        has_pending_expression := true
        pending_has_value := true
        pending_value := ⟨stack_top_register c 0, true⟩ }
    else
      let c ← compile_expression c e
      return pop_stack_slots c 1
  | .ifS cond then_branch else_branch =>
    let c ← compile_expression c cond
    let condition_reg := stack_top_register c 0
    let p := emit_jump_if_false c condition_reg
    let c := pop_stack_slots p.1 1
    let c ← compile_statement c then_branch
    let q := emit_jump_unconditional c
    let c ← patch_jump q.1 p.2
    let c ← match else_branch with
      | some els => compile_statement c els
      | none => pure c
    patch_jump c q.2
  | .whileS cond body =>
    let loop_start := c.func.code.length
    let c ← compile_expression c cond
    let condition_reg := stack_top_register c 0
    let p := emit_jump_if_false c condition_reg
    let c := pop_stack_slots p.1 1
    let c ← compile_statement c body
    let c ← emit_loop_instruction c loop_start
    patch_jump c p.2
  | .blockS statements =>
    let c := begin_scope c
    let c ← compile_block c statements
    return end_scope c
  | .functionS name params body =>
    if params.length > 255 then
      throw ("Function " ++ name ++ " has too many parameters.")
    let is_global := ¬c.enclosing ∧ c.scope_depth = 0
    let pre ← (if is_global then do
        let p ← global_table_add c name
        return (p.1, p.2, (none : Option Nat))
      else do
        let p ← add_local c name
        return (local_finish p.1 p.2 p.1.scope_depth, 0, some p.2))
    let c := pre.1
    let child0 := compiler_init true c.globals
      ⟨some name, params.length, 0, [], [], []⟩ .FUNCTION_TYPE_FUNCTION
    let child1 ← add_params child0 params
    let child2 ← compile_function_body child1 body
    let c := { c with globals := child2.globals }
    let q ← push_stack_slot c
    let c := emit_op_load_constant q.1 q.2 child2.func.toCVal
    let c := match pre.2.2 with
      | none => emit_op_define_global c q.2 pre.2.1
      | some slot => emit_op_move c ((c.locals.getD slot noLocal).reg) q.2
    return pop_stack_slots c 1
  | .returnS value =>
    let c := discard_pending_expression c
    if c.type = .FUNCTION_TYPE_INITIALIZER ∧ value.isSome then
      throw "Cannot return a value from constructor."
    let c ← (match value with
      | some v => do
        let c ← compile_expression c v
        let value_reg := stack_top_register c 0
        let c := emit_return_value c value_reg
        pure (pop_stack_slots c 1)
      | none => emit_return c)
    return { c with has_pending_expression := false, pending_has_value := false }
  | .classS name methods =>
    let pn := make_string_constant c name
    let c := pn.1
    let name_constant := pn.2
    let is_global := ¬c.enclosing ∧ c.scope_depth = 0
    let pre ← (if is_global then do
        let p ← global_table_add c name
        return (p.1, p.2, (none : Option Nat))
      else do
        let p ← add_local c name
        return (p.1, 0, some p.2))
    let q ← push_stack_slot pre.1
    let c := emit_op_class q.1 q.2 name_constant
    let class_reg := q.2
    let c := match pre.2.2 with
      | none => emit_op_define_global c class_reg pre.2.1
      | some slot =>
        let c := local_finish c slot c.scope_depth
        emit_op_move c ((c.locals.getD slot noLocal).reg) class_reg
    let c ← compile_method_list c methods class_reg
    return pop_stack_slots c 1

def compile_block (c : Compiler) (statements : List Statement) : Except String Compiler := do
  match statements with
  | [] => return c
  | s :: rest =>
    let c ← compile_statement c s
    compile_block c rest

def compile_method_list (c : Compiler) (ms : List ClassMethod) (class_reg : Int) :
    Except String Compiler := do
  match ms with
  | [] => return c
  | m :: rest =>
    let c ← compile_method c m class_reg
    compile_method_list c rest class_reg

def compile_method (c : Compiler) (m : ClassMethod) (class_reg : Int) :
    Except String Compiler := do
  match m with
  | .mk mname mctor mparams mbody =>
    let required_arity := mparams.length + 1
    if required_arity > 255 then
      throw ("Method " ++ mname ++ " has too many parameters.")
    let ftype := if mctor then FunctionType.FUNCTION_TYPE_INITIALIZER
      else FunctionType.FUNCTION_TYPE_METHOD
    let child0 := compiler_init true c.globals
      ⟨some mname, required_arity, 0, [], [], []⟩ ftype
    let p ← add_local child0 "this"
    let child1 := local_finish p.1 p.2 0
    let child2 ← add_params child1 mparams
    let child3 ← compile_function_body child2 mbody
    let c := { c with globals := child3.globals }
    let q ← push_stack_slot c
    let c := emit_op_load_constant q.1 q.2 child3.func.toCVal
    let r := make_string_constant c mname
    let c := emit_op_method r.1 class_reg r.2 q.2
    return pop_stack_slots c 1

def compile_function_body (c : Compiler) (body : Option Statement) :
    Except String Compiler := do
  match body with
  | none => emit_return c
  | some b =>
    match b with
    | .blockS statements =>
      let c := begin_scope c
      let c ← compile_block c statements
      let c := end_scope c
      emit_return c
    | _ => throw "Function body must be a block."

end

/-- compiler_compile: compile every top-level statement into the script
function, then emit the final implicit return. -/
def compiler_compile (program : List Statement) : Except String CFn := do
  let c0 := compiler_init false [] ⟨some "script", 0, 0, [], [], []⟩ .FUNCTION_TYPE_SCRIPT
  let c ← compile_block c0 program
  let c ← emit_return c
  return c.func

end Vibelang

namespace Vibelang

/-! ## Heap lookup lemmas -/

theorem heapFind_heapSet_self (objects : List HeapObj) (id : ObjId) (d : ObjData)
    (o : HeapObj) (ho : heapFind objects id = some o) :
    heapFind (heapSet objects id d) id = some { o with data := d } := by
  induction objects with
  | nil => simp [heapFind] at ho
  | cons x rest ih =>
    by_cases hid : x.id = id
    · have hxo : x = o := by
        unfold heapFind at ho
        rw [List.find?_cons_of_pos _ (by simpa using hid)] at ho
        exact Option.some.inj ho
      subst hxo
      unfold heapFind heapSet
      simp only [List.map_cons, if_pos hid]
      rw [List.find?_cons_of_pos _ (by simpa using hid)]
    · have ho2 : heapFind rest id = some o := by
        unfold heapFind at ho ⊢
        rwa [List.find?_cons_of_neg _ (by simpa using hid)] at ho
      unfold heapFind heapSet at *
      simp only [List.map_cons, if_neg hid]
      rw [List.find?_cons_of_neg _ (by simpa using hid)]
      exact ih ho2

theorem heapFind_heapSet_ne (objects : List HeapObj) (id id2 : ObjId) (d : ObjData)
    (hne : id2 ≠ id) :
    heapFind (heapSet objects id d) id2 = heapFind objects id2 := by
  induction objects with
  | nil => simp [heapFind, heapSet]
  | cons x rest ih =>
    by_cases hid : x.id = id
    · have h1 : ¬x.id = id2 := fun h => hne (h ▸ hid ▸ rfl)
      unfold heapFind heapSet at *
      simp only [List.map_cons, if_pos hid]
      rw [List.find?_cons_of_neg _ (by simpa using h1),
        List.find?_cons_of_neg _ (by simpa using h1)]
      exact ih
    · unfold heapFind heapSet at *
      simp only [List.map_cons, if_neg hid]
      by_cases h2 : x.id = id2
      · rw [List.find?_cons_of_pos _ (by simpa using h2),
          List.find?_cons_of_pos _ (by simpa using h2)]
      · rw [List.find?_cons_of_neg _ (by simpa using h2),
          List.find?_cons_of_neg _ (by simpa using h2)]
        exact ih

theorem heapFind_fresh_cons (objects : List HeapObj) (h : HeapObj) (id2 : ObjId)
    (hne : id2 ≠ h.id) :
    heapFind (h :: objects) id2 = heapFind objects id2 := by
  unfold heapFind
  rw [List.find?_cons_of_neg _ (by simpa using fun hx => hne hx.symm)]

/-- Ids handed out so far are below the allocation counter. -/
def idsBounded (vm : VM) : Prop := ∀ o ∈ vm.objects, o.id < vm.next_id

instance (vm : VM) : Decidable (idsBounded vm) := by
  unfold idsBounded
  infer_instance

/-! ## C10: class method tables -/

theorem find_method_list_define_self (ms : List (ObjId × Value)) (name : ObjId) (v : Value) :
    find_method_list (define_method_list ms name v) name = some v := by
  induction ms with
  | nil => simp [define_method_list, find_method_list]
  | cons p rest ih =>
    by_cases hn : p.1 = name
    · simp [define_method_list, find_method_list, hn]
    · cases p with
    | mk n w =>
      simp only at hn
      simp only [define_method_list, if_neg hn]
      simpa [find_method_list, hn] using ih

theorem define_method_list_keys_of_mem (ms : List (ObjId × Value)) (name : ObjId) (v : Value)
    (hmem : (find_method_list ms name).isSome) :
    (define_method_list ms name v).map Prod.fst = ms.map Prod.fst := by
  induction ms with
  | nil => simp [find_method_list] at hmem
  | cons p rest ih =>
    cases p with
    | mk n w =>
      by_cases hn : n = name
      · simp [define_method_list, hn]
      · simp only [find_method_list, List.find?_cons] at hmem
        have hd : (decide ((n, w).1 = name)) = false := by simpa using hn
        rw [hd] at hmem
        simp only [define_method_list, if_neg hn, List.map_cons]
        have := ih (by simpa [find_method_list] using hmem)
        rw [this]

theorem define_method_list_keys_nodup (ms : List (ObjId × Value)) (name : ObjId) (v : Value)
    (hnd : (ms.map Prod.fst).Nodup) :
    ((define_method_list ms name v).map Prod.fst).Nodup := by
  induction ms with
  | nil => simp [define_method_list]
  | cons p rest ih =>
    cases p with
    | mk n w =>
      simp only [List.map_cons, List.nodup_cons] at hnd
      by_cases hn : n = name
      · simp only [define_method_list, if_pos hn, List.map_cons, List.nodup_cons]
        exact ⟨hnd.1, hnd.2⟩
      · simp only [define_method_list, if_neg hn, List.map_cons, List.nodup_cons]
        refine ⟨?_, ih hnd.2⟩
        intro hmem
        by_cases hfound : (find_method_list rest name).isSome
        · rw [define_method_list_keys_of_mem rest name v hfound] at hmem
          exact hnd.1 hmem
        · -- name absent: the keys are the old keys plus `name` at the end
          have hkeys : (define_method_list rest name v).map Prod.fst
              = rest.map Prod.fst ++ [name] := by
            clear hmem ih hnd
            induction rest with
            | nil => simp [define_method_list]
            | cons q qs ihq =>
              cases q with
              | mk qn qw =>
                by_cases hq : qn = name
                · exfalso
                  apply hfound
                  simp [find_method_list, List.find?_cons, hq]
                · simp only [find_method_list, List.find?_cons] at hfound
                  have hd : (decide ((qn, qw).1 = name)) = false := by simpa using hq
                  rw [hd] at hfound
                  simp only [define_method_list, if_neg hq, List.map_cons]
                  rw [ihq (by simpa [find_method_list] using hfound)]
                  simp
          rw [hkeys] at hmem
          rcases List.mem_append.mp hmem with h1 | h1
          · exact hnd.1 h1
          · simp at h1
            exact hn h1

end Vibelang

namespace Vibelang

open TokenType in
/-- C7: the specification says the lexer recognises `class`, `constructor`
and `this` as keyword tokens and `.` as a punctuator, and the repository's
lexer tests expect exactly that; src/lexer.c does not implement any of
them.  Evaluating the embedded lexer at the failing input `this.x`
produces an identifier token for `this` followed by an error token for the
dot, and `class` and `constructor` lex as plain identifiers. -/
theorem C7_lexer_lacks_class_era_tokens :
    (lexer_next_token ("this.x".toList)).1.type = TOKEN_IDENTIFIER ∧
    (lexer_next_token ("this.x".toList)).1.lexeme = "this".toList ∧
    (lexer_next_token ((lexer_next_token ("this.x".toList)).2)).1.type = TOKEN_ERROR ∧
    (lexer_next_token ((lexer_next_token ("this.x".toList)).2)).1.lexeme
      = "Unexpected character".toList ∧
    (lexer_next_token ("class".toList)).1.type = TOKEN_IDENTIFIER ∧
    (lexer_next_token ("constructor".toList)).1.type = TOKEN_IDENTIFIER := by
  decide

/-- C10: obj_class_define_method keeps at most one method-table entry per
name (names compared by object identity, i.e. id equality): on a table
with pairwise-distinct names, defining a method keeps the names distinct;
when the name is already present the entry is replaced in place, with the
name sequence (hence the count) unchanged; and obj_class_find_method then
returns the most recently defined value. -/
theorem C10_class_method_table_unique (vm : VM) (cid name : ObjId) (v : Value)
    (o : HeapObj) (cname : Option ObjId) (ms : List (ObjId × Value))
    (ho : heapFind vm.objects cid = some o)
    (hdata : o.data = .ocls cname ms)
    (hnd : (ms.map Prod.fst).Nodup) :
    ∃ vm2, obj_class_define_method vm cid name v = some vm2
      ∧ heapFind vm2.objects cid
          = some { o with data := .ocls cname (define_method_list ms name v) }
      ∧ ((define_method_list ms name v).map Prod.fst).Nodup
      ∧ ((find_method_list ms name).isSome →
          (define_method_list ms name v).map Prod.fst = ms.map Prod.fst
          ∧ (define_method_list ms name v).length = ms.length)
      ∧ obj_class_find_method vm2 cid name = some v := by
  refine ⟨{ vm with
      objects := heapSet vm.objects cid (.ocls cname (define_method_list ms name v))
      bytes_allocated := vm.bytes_allocated
        + (if (find_method_list ms name).isSome then 0 else sizeof_ObjProperty) },
    ?_, ?_, ?_, ?_, ?_⟩
  · simp only [obj_class_define_method, ho, hdata]
  · exact heapFind_heapSet_self vm.objects cid _ o ho
  · exact define_method_list_keys_nodup ms name v hnd
  · intro hmem
    refine ⟨define_method_list_keys_of_mem ms name v hmem, ?_⟩
    have := congrArg List.length (define_method_list_keys_of_mem ms name v hmem)
    simpa using this
  · have hset := heapFind_heapSet_self vm.objects cid
      (.ocls cname (define_method_list ms name v)) o ho
    simp only [obj_class_find_method, hset]
    exact find_method_list_define_self ms name v

/-- The C10 witness heap: one class (id 1) whose single method is named
by string object 0. -/
def c10cls : HeapObj := ⟨1, false, .ocls (some 0) [(0, .vnum 1)]⟩

def c10vm : VM :=
  ⟨[], [], 0, [], [0], [c10cls, ⟨0, false, .ostr "m".toList 0⟩], 0, 1024, [], 2⟩

/-- C10 witness: redefining the method named by string 0 on the concrete
heap satisfies every hypothesis of the theorem. -/
theorem C10_class_method_table_unique_witness :
    ∃ vm2, obj_class_define_method c10vm 1 0 (.vnum 2) = some vm2
      ∧ heapFind vm2.objects 1
          = some { c10cls with
              data := .ocls (some 0) (define_method_list [(0, .vnum 1)] 0 (.vnum 2)) }
      ∧ ((define_method_list [(0, .vnum 1)] 0 (.vnum 2)).map Prod.fst).Nodup
      ∧ ((find_method_list [(0, .vnum 1)] 0).isSome →
          (define_method_list [(0, .vnum 1)] 0 (.vnum 2)).map Prod.fst
            = [((0 : ObjId), Value.vnum 1)].map Prod.fst
          ∧ (define_method_list [(0, .vnum 1)] 0 (.vnum 2)).length
              = [((0 : ObjId), Value.vnum 1)].length)
      ∧ obj_class_find_method vm2 1 0 = some (.vnum 2) :=
  C10_class_method_table_unique c10vm 1 0 (.vnum 2) c10cls (some 0) [(0, .vnum 1)]
    (by decide) (by decide) (by decide)

end Vibelang

namespace Vibelang

/-! ## C3: string interning -/

theorem heapFind_of_mem_nodup (objects : List HeapObj) (o : HeapObj)
    (ho : o ∈ objects) (hnd : (objects.map HeapObj.id).Nodup) :
    heapFind objects o.id = some o := by
  induction objects with
  | nil => simp at ho
  | cons x rest ih =>
    simp only [List.map_cons, List.nodup_cons] at hnd
    rcases List.mem_cons.mp ho with h1 | h1
    · subst h1
      unfold heapFind
      rw [List.find?_cons_of_pos _ (by simp)]
    · have hne : x.id ≠ o.id := by
        intro he
        exact hnd.1 (he ▸ List.mem_map_of_mem HeapObj.id h1)
      unfold heapFind
      rw [List.find?_cons_of_neg _ (by simpa using hne)]
      exact ih h1 hnd.2

/-- Stored hash of a string object is the FNV-1a hash of its bytes. -/
def hash_wf (o : HeapObj) : Bool :=
  match o.data with
  | .ostr cs h => decide (h = hash_bytes cs)
  | _ => true

theorem hash_wf_spec (o : HeapObj) (cs : List Char) (h : Nat)
    (hw : hash_wf o = true) (hd : o.data = .ostr cs h) : h = hash_bytes cs := by
  unfold hash_wf at hw
  rw [hd] at hw
  simpa using hw

/-- The intern-table well-formedness the VM maintains: every heap string is
interned, every table entry is a live heap string, stored hashes are the
FNV-1a hashes of the contents, distinct entries have distinct contents,
and heap ids are unique. -/
def StringWF (vm : VM) : Prop :=
  (∀ o ∈ vm.objects, o.data.isStr → o.id ∈ vm.strings)
  ∧ (∀ id ∈ vm.strings, (strContents vm.objects id).isSome)
  ∧ (∀ o ∈ vm.objects, hash_wf o)
  ∧ vm.strings.Pairwise (fun i j => strContents vm.objects i ≠ strContents vm.objects j)
  ∧ (vm.objects.map HeapObj.id).Nodup

instance (vm : VM) : Decidable (StringWF vm) := by
  unfold StringWF
  infer_instance

theorem strContents_eq_of_heapFind (objects : List HeapObj) (id : ObjId) (o : HeapObj)
    (ho : heapFind objects id = some o) (cs : List Char) (h : Nat)
    (hd : o.data = .ostr cs h) : strContents objects id = some cs := by
  simp [strContents, ho, hd]

theorem strContents_inv (objects : List HeapObj) (id : ObjId) (o : HeapObj)
    (cs : List Char) (hf : heapFind objects id = some o)
    (hcs : strContents objects id = some cs) : ∃ h2, o.data = .ostr cs h2 := by
  unfold strContents at hcs
  rw [hf] at hcs
  simp only [] at hcs
  cases hd : o.data with
  | ostr cs2 h2 =>
    rw [hd] at hcs
    simp only [Option.some.injEq] at hcs
    exact ⟨h2, by rw [hcs]⟩
  | ofun a r c n => rw [hd] at hcs; simp at hcs
  | oarr e => rw [hd] at hcs; simp at hcs
  | ocls n m => rw [hd] at hcs; simp at hcs
  | oinst k2 f => rw [hd] at hcs; simp at hcs
  | obound r m => rw [hd] at hcs; simp at hcs

/-- table_find_string returns the unique entry with the requested bytes
when the table has pairwise-distinct contents and well-formed hashes. -/
theorem table_find_string_of_mem (objects : List HeapObj) (keys : List ObjId)
    (cs : List Char) (id : ObjId)
    (hhash : ∀ o ∈ objects, hash_wf o)
    (hpw : keys.Pairwise (fun i j => strContents objects i ≠ strContents objects j))
    (hid : id ∈ keys) (hcs : strContents objects id = some cs) :
    table_find_string objects keys cs (hash_bytes cs) = some id := by
  induction keys with
  | nil => simp at hid
  | cons k rest ih =>
    rcases List.pairwise_cons.mp hpw with ⟨hk, hrest⟩
    rcases List.mem_cons.mp hid with h1 | h1
    · subst h1
      have hf : ∃ o, heapFind objects id = some o := by
        unfold strContents at hcs
        cases hx : heapFind objects id with
        | none => rw [hx] at hcs; simp at hcs
        | some o => exact ⟨o, rfl⟩
      obtain ⟨o, hf⟩ := hf
      obtain ⟨h2, hd⟩ := strContents_inv objects id o cs hf hcs
      have hh : h2 = hash_bytes cs :=
        hash_wf_spec o cs h2 (hhash o (List.mem_of_find?_eq_some hf)) hd
      unfold table_find_string
      rw [List.find?_cons_of_pos]
      simp only [hf]
      rw [hd]
      simp [string_equals, hh]
    · have hkne : strContents objects k ≠ strContents objects id := hk id h1
      unfold table_find_string
      rw [List.find?_cons_of_neg]
      · exact ih hrest h1
      · simp only [Bool.not_eq_true]
        cases hfk : heapFind objects k with
        | none => simp [hfk]
        | some o =>
          simp only [hfk]
          cases hd : o.data with
          | ostr cs2 h2 =>
            by_cases hceq : cs2 = cs
            · exfalso
              apply hkne
              rw [strContents_eq_of_heapFind objects k o hfk cs2 h2 hd, hceq, hcs]
            · simp [string_equals, hceq]
          | ofun a r c n => simp [string_equals]
          | oarr e => simp [string_equals]
          | ocls n m => simp [string_equals]
          | oinst k2 f => simp [string_equals]
          | obound r m => simp [string_equals]

/-- C3: on a well-formed VM, byte-equal heap strings are one and the same
object, and creating a string whose bytes are already interned returns
the existing object with the VM unchanged (no allocation), both through
obj_string_take and obj_string_copy. -/
theorem C3_string_interning_unique (vm : VM) (hwf : StringWF vm) :
    (∀ o1 ∈ vm.objects, ∀ o2 ∈ vm.objects, ∀ cs1 h1 cs2 h2,
      o1.data = .ostr cs1 h1 → o2.data = .ostr cs2 h2 → cs1 = cs2 → o1 = o2)
    ∧ (∀ cs id, id ∈ vm.strings → strContents vm.objects id = some cs →
        obj_string_take vm cs = (vm, id) ∧ obj_string_copy vm cs = (vm, id)) := by
  obtain ⟨hintern, _hlive, hhash, hpw, hnd⟩ := hwf
  constructor
  · intro o1 h1m o2 h2m cs1 hh1 cs2 hh2 hd1 hd2 hceq
    have hid1 : o1.id ∈ vm.strings := hintern o1 h1m (by simp [ObjData.isStr, hd1])
    have hid2 : o2.id ∈ vm.strings := hintern o2 h2m (by simp [ObjData.isStr, hd2])
    have hc1 : strContents vm.objects o1.id = some cs1 :=
      strContents_eq_of_heapFind _ _ _ (heapFind_of_mem_nodup _ _ h1m hnd) _ _ hd1
    have hc2 : strContents vm.objects o2.id = some cs2 :=
      strContents_eq_of_heapFind _ _ _ (heapFind_of_mem_nodup _ _ h2m hnd) _ _ hd2
    by_cases hide : o1.id = o2.id
    · have e1 := heapFind_of_mem_nodup _ _ h1m hnd
      have e2 := heapFind_of_mem_nodup _ _ h2m hnd
      rw [hide, e2] at e1
      exact (Option.some.inj e1).symm
    · exfalso
      have hsym : Symmetric (fun i j => strContents vm.objects i ≠ strContents vm.objects j) :=
        fun i j hij => fun he => hij he.symm
      have := List.Pairwise.forall hsym hpw hid1 hid2 hide
      rw [hc1, hc2, hceq] at this
      exact this rfl
  · intro cs id hid hcs
    have hfind := table_find_string_of_mem vm.objects vm.strings cs id hhash hpw hid hcs
    refine ⟨?_, ?_⟩
    · simp only [obj_string_take, hfind]
    · simp only [obj_string_copy, obj_string_take, hfind]

/-- C3 witness: a concrete two-string heap (contents ab and cd, both
interned); looking up ab returns string object 0 without allocating. -/
def c3vm : VM :=
  ⟨[], [], 0, [], [0, 1],
    [⟨1, false, .ostr "cd".toList (hash_bytes "cd".toList)⟩,
     ⟨0, false, .ostr "ab".toList (hash_bytes "ab".toList)⟩], 0, 1024, [], 2⟩

theorem C3_string_interning_unique_witness :
    (∀ o1 ∈ c3vm.objects, ∀ o2 ∈ c3vm.objects, ∀ cs1 h1 cs2 h2,
      o1.data = .ostr cs1 h1 → o2.data = .ostr cs2 h2 → cs1 = cs2 → o1 = o2)
    ∧ (∀ cs id, id ∈ c3vm.strings → strContents c3vm.objects id = some cs →
        obj_string_take c3vm cs = (c3vm, id) ∧ obj_string_copy c3vm cs = (c3vm, id)) :=
  C3_string_interning_unique c3vm (by decide)

end Vibelang

namespace Vibelang

/-! ## C8: stack traces on runtime errors -/

theorem runtime_error_lines_eq (objects : List HeapObj) (fs : List CallFrame) :
    runtime_error_lines objects fs = (fs.map (frame_trace_line objects)).reverse := by
  induction fs with
  | nil => rfl
  | cons f rest ih => simp [runtime_error_lines, ih]

def c8chunk : RtChunk := ⟨[1, 0, 18, 0], [7, 7, 7, 7], []⟩

/-- The VM state right after a runtime error site is reached while the
compiled script function (named "script", as compiler_compile names it)
runs in the single top-level frame. -/
def c8fvm : VM :=
  ⟨[⟨0, 2, 0, none, 0⟩], [], 0, [], [1],
    [⟨0, false, .ofun 0 1 c8chunk (some 1)⟩,
     ⟨1, false, .ostr "script".toList 0⟩], 0, 1024, [], 2⟩

/-- C8 counterexample: the claim says NAME is `<script>` for the top-level
function, but compiler_compile names the script function "script" and
runtime_error prints a function's name whenever it has one, so a runtime
error in the single top-level frame prints `[line 7] in script` — the name
`script`, not `<script>`. -/
theorem C8_counterexample_script_name :
    (compiler_compile []).toOption.map (fun f => f.name) = some (some "script") ∧
    c8fvm.frames.length = 1 ∧
    (runtime_error c8fvm "boom").1 = ("boom", [(7, "script".toList)]) ∧
    "script".toList ≠ "<script>".toList :=
  ⟨by decide, by decide, by decide, by decide⟩

/-- C8 (amended): every runtime error reports the message together with
one `[line L] in NAME` pair per active call frame, innermost first (the
reverse of the frame list), where L is the line recorded in the chunk's
line table for the last executed instruction; it resets the stack and
frames and returns the runtime-error status.  NAME is the byte content of
the frame's function's name string whenever the function has one — the
top-level script function is compiled with the name "script", so its line
reads `in script` — and `<script>` is only the fallback for a function
object without a name. -/
theorem C8_runtime_error_trace_amended (vm : VM) (msg : String) (steps : Nat) :
    run_err vm msg steps =
      ⟨some .INTERPRET_RUNTIME_ERROR, none,
        some (msg, (vm.frames.map (frame_trace_line vm.objects)).reverse),
        { vm with stack_top := 0, frames := [] }, steps⟩
    ∧ (∀ (f : CallFrame) (o : HeapObj), heapFind vm.objects f.function = some o →
        ∀ (a r : Nat) (chunk : RtChunk) (nid : ObjId),
          o.data = .ofun a r chunk (some nid) →
          ∀ cs, strContents vm.objects nid = some cs →
          (frame_trace_line vm.objects f).2 = cs)
    ∧ (∀ (f : CallFrame) (o : HeapObj), heapFind vm.objects f.function = some o →
        ∀ (a r : Nat) (chunk : RtChunk), o.data = .ofun a r chunk none →
          (frame_trace_line vm.objects f).2 = "<script>".toList) := by
  refine ⟨?_, ?_, ?_⟩
  · simp [run_err, runtime_error, runtime_error_lines_eq, vm_reset_stack]
  · intro f o ho a r chunk nid hd cs hcs
    simp [frame_trace_line, ho, hd, hcs]
  · intro f o ho a r chunk hd
    simp [frame_trace_line, ho, hd]

theorem C8_runtime_error_trace_amended_witness :
    run_err c8fvm "boom" 3 =
      ⟨some .INTERPRET_RUNTIME_ERROR, none,
        some ("boom", (c8fvm.frames.map (frame_trace_line c8fvm.objects)).reverse),
        { c8fvm with stack_top := 0, frames := [] }, 3⟩ ∧
    (frame_trace_line c8fvm.objects ⟨0, 2, 0, none, 0⟩).2 = "script".toList :=
  ⟨(C8_runtime_error_trace_amended c8fvm "boom" 3).1,
    (C8_runtime_error_trace_amended c8fvm "boom" 3).2.1 ⟨0, 2, 0, none, 0⟩
      ⟨0, false, .ofun 0 1 c8chunk (some 1)⟩ (by decide) 0 1 c8chunk 1 (by decide)
      ("script".toList) (by decide)⟩

/-! ## C9: vm_interpret rejects nonzero arity before dispatch -/

/-- C9: interpreting a function whose declared arity is nonzero yields a
runtime-error outcome after zero dispatched instructions: the arity check
precedes the dispatch loop, so no instruction of the function runs. -/
theorem C9_interpret_rejects_nonzero_arity (vm : VM) (fid : ObjId) (fuel : Nat)
    (arity rc : Nat) (chunk : RtChunk) (nm : Option ObjId)
    (hf : as_function vm fid = some (arity, rc, chunk, nm)) (ha : arity ≠ 0) :
    vm_interpret vm fid fuel =
      ⟨some .INTERPRET_RUNTIME_ERROR, none,
        some ("Can only directly interpret zero-arity functions.",
          (vm.frames.map (frame_trace_line vm.objects)).reverse),
        { vm with stack_top := 0, frames := [] }, 0⟩ := by
  simp [vm_interpret, hf, ha, runtime_error, runtime_error_lines_eq, vm_reset_stack]

def c9chunk : RtChunk := ⟨[1, 0, 18, 0], [0, 0, 0, 0], []⟩

def c9vm : VM :=
  ⟨[], [], 0, [], [], [⟨0, false, .ofun 1 1 c9chunk none⟩], 0, 1024, [], 1⟩

theorem C9_interpret_rejects_nonzero_arity_witness :
    as_function c9vm 0 = some (1, 1, c9chunk, none) ∧ (1 : Nat) ≠ 0 ∧
    vm_interpret c9vm 0 10 =
      ⟨some .INTERPRET_RUNTIME_ERROR, none,
        some ("Can only directly interpret zero-arity functions.",
          (c9vm.frames.map (frame_trace_line c9vm.objects)).reverse),
        { c9vm with stack_top := 0, frames := [] }, 0⟩ :=
  ⟨by decide, by decide,
    C9_interpret_rejects_nonzero_arity c9vm 0 10 1 1 c9chunk none (by decide) (by decide)⟩

end Vibelang

namespace Vibelang

/-! ## C6: ARRAY_GET bounds and integrality checks -/

theorem except_total {ε α : Type} (e : Except ε α) (h : ∀ v, e ≠ .ok v) :
    ∃ msg, e = .error msg := by
  cases e with
  | error msg => exact ⟨msg, rfl⟩
  | ok v => exact absurd rfl (h v)

theorem rat_floor_natCast (n : ℕ) : Rat.floor ((n : ℚ)) = (n : ℤ) := by
  rw [Rat.floor_def', Rat.num_natCast, Rat.den_natCast]
  simp

/-- C6: reading an array element succeeds exactly when the index is a
number equal to a natural number strictly below the array's length (so:
non-negative, integer-valued, in range), in which case it yields that
element; a number failing any of those conditions errors, and a
non-number index errors. -/
theorem C6_array_get_bounds (vm : VM) (av : Value) (elems : List Value)
    (harr : arrayElems vm.objects av = some elems)
    (hlen : elems.length ≤ 2 ^ 64) :
    (∀ q v, op_array_get vm av (.vnum q) = .ok v ↔
      ∃ n : ℕ, q = (n : ℚ) ∧ n < elems.length ∧ v = elems.getD n .vnull)
    ∧ (∀ q, (¬ ∃ n : ℕ, q = (n : ℚ) ∧ n < elems.length) →
      ∃ msg, op_array_get vm av (.vnum q) = .error msg)
    ∧ (∀ iv, (∀ q, iv ≠ .vnum q) →
      op_array_get vm av iv = .error "Array index must be a number.") := by
  have main : ∀ q v, op_array_get vm av (.vnum q) = .ok v ↔
      ∃ n : ℕ, q = (n : ℚ) ∧ n < elems.length ∧ v = elems.getD n .vnull := by
    intro q v
    constructor
    · intro h
      by_cases h0 : q < 0 ∨ ((2 ^ 64 : ℕ) : ℚ) < q
      · simp only [op_array_get, harr] at h
        rw [if_pos h0] at h
        exact Except.noConfusion h
      · simp only [op_array_get, harr, if_neg h0] at h
        by_cases h1 : (((Rat.floor q).toNat : ℚ)) ≠ q
        · simp [h1] at h
        · push_neg at h1
          by_cases h2 : elems.length ≤ (Rat.floor q).toNat
          · simp [h1, h2] at h
          · simp only [h1, ne_eq, not_true_eq_false, if_false, if_neg h2,
              Except.ok.injEq] at h
            exact ⟨(Rat.floor q).toNat, h1.symm, by omega, h.symm⟩
    · rintro ⟨n, rfl, hn, rfl⟩
      have hle : (n : ℚ) ≤ ((2 ^ 64 : ℕ) : ℚ) :=
        Nat.cast_le.mpr (le_of_lt (lt_of_lt_of_le hn hlen))
      have h0 : ¬((n : ℚ) < 0 ∨ ((2 ^ 64 : ℕ) : ℚ) < (n : ℚ)) := by
        push_neg
        exact ⟨Nat.cast_nonneg n, hle⟩
      have hfl : (Rat.floor ((n : ℚ))).toNat = n := by
        rw [rat_floor_natCast]
        exact Int.toNat_natCast n
      simp only [op_array_get, harr, if_neg h0, hfl, Nat.cast_inj]
      simp [Nat.not_le.mpr hn]
  refine ⟨main, ?_, ?_⟩
  · intro q hq
    refine except_total _ ?_
    intro v hv
    exact hq ((main q v).mp hv |>.imp (fun n hn => ⟨hn.1, hn.2.1⟩))
  · intro iv hiv
    cases iv with
    | vnum q => exact absurd rfl (hiv q)
    | vnull => simp [op_array_get, harr]
    | vbool b => simp [op_array_get, harr]
    | vobj id => simp [op_array_get, harr]

def c6vm : VM :=
  ⟨[], [], 0, [], [], [⟨0, false, .oarr [.vnull, .vbool true]⟩], 0, 1024, [], 1⟩

theorem C6_array_get_bounds_witness :
    arrayElems c6vm.objects (.vobj 0) = some [.vnull, .vbool true] ∧
    [Value.vnull, Value.vbool true].length ≤ 2 ^ 64 ∧
    ((∀ q v, op_array_get c6vm (.vobj 0) (.vnum q) = .ok v ↔
      ∃ n : ℕ, q = (n : ℚ) ∧ n < [Value.vnull, Value.vbool true].length ∧
        v = [Value.vnull, Value.vbool true].getD n .vnull)
    ∧ (∀ q, (¬ ∃ n : ℕ, q = (n : ℚ) ∧ n < [Value.vnull, Value.vbool true].length) →
      ∃ msg, op_array_get c6vm (.vobj 0) (.vnum q) = .error msg)
    ∧ (∀ iv, (∀ q, iv ≠ .vnum q) →
      op_array_get c6vm (.vobj 0) iv = .error "Array index must be a number.")) :=
  ⟨by decide, by decide,
    C6_array_get_bounds c6vm (.vobj 0) [Value.vnull, Value.vbool true]
      (by decide) (by decide)⟩

end Vibelang

namespace Vibelang

/-! ## C2: polymorphic ADD -/

theorem heapSet_not_mem (objects : List HeapObj) (id : ObjId) (d : ObjData)
    (h : ∀ o ∈ objects, o.id ≠ id) : heapSet objects id d = objects := by
  induction objects with
  | nil => rfl
  | cons o rest ih =>
    simp only [heapSet, List.map_cons]
    rw [if_neg (h o (by simp))]
    have ht := ih (fun o2 h2 => h o2 (by simp [h2]))
    simp only [heapSet] at ht
    rw [ht]

theorem heapSet_fresh_cons (objects : List HeapObj) (nid : ObjId) (m : Bool)
    (d d2 : ObjData) (h : ∀ o ∈ objects, o.id ≠ nid) :
    heapSet (⟨nid, m, d⟩ :: objects) nid d2 = ⟨nid, m, d2⟩ :: objects := by
  have ht := heapSet_not_mem objects nid d2 h
  simp only [heapSet, List.map_cons] at *
  rw [ht]
  simp

theorem heapFind_cons_self (objects : List HeapObj) (nid : ObjId) (m : Bool)
    (d : ObjData) : heapFind (⟨nid, m, d⟩ :: objects) nid = some ⟨nid, m, d⟩ := by
  unfold heapFind
  rw [List.find?_cons_of_pos _ (by simp)]

theorem heapFind_mem_id (objects : List HeapObj) (id : ObjId) (o : HeapObj)
    (hf : heapFind objects id = some o) : o ∈ objects ∧ o.id = id :=
  ⟨List.mem_of_find?_eq_some hf, by simpa using List.find?_some hf⟩

theorem arrayElems_inv (objects : List HeapObj) (v : Value) (es : List Value)
    (h : arrayElems objects v = some es) :
    ∃ id o, v = .vobj id ∧ heapFind objects id = some o ∧ o.id = id ∧
      o.data = .oarr es := by
  cases v with
  | vnull => simp [arrayElems] at h
  | vbool b => simp [arrayElems] at h
  | vnum q => simp [arrayElems] at h
  | vobj id =>
    simp only [arrayElems] at h
    cases hf : heapFind objects id with
    | none => rw [hf] at h; simp at h
    | some o =>
      rw [hf] at h
      simp only [] at h
      have hid : o.id = id := (heapFind_mem_id objects id o hf).2
      cases hd : o.data with
      | oarr es2 =>
        rw [hd] at h
        simp only [Option.some.injEq] at h
        exact ⟨id, o, rfl, hf, hid, by rw [hd, h]⟩
      | ostr cs hh => rw [hd] at h; simp at h
      | ofun a r c n => rw [hd] at h; simp at h
      | ocls n ms => rw [hd] at h; simp at h
      | oinst k fs => rw [hd] at h; simp at h
      | obound r mt => rw [hd] at h; simp at h

theorem table_define_objects (vm : VM) (key : ObjId) :
    (table_define vm key).objects = vm.objects := by
  unfold table_define
  cases heapFind vm.objects key with
  | none => rfl
  | some o =>
    simp only []
    cases o.data with
    | ostr cs h => by_cases hx : (table_find_string vm.objects vm.strings cs h).isSome <;>
        simp [hx]
    | ofun a r c n => rfl
    | oarr es => rfl
    | ocls n ms => rfl
    | oinst k fs => rfl
    | obound r mt => rfl

theorem table_find_string_contents (objects : List HeapObj) (keys : List ObjId)
    (cs : List Char) (h : Nat) (id : ObjId)
    (hf : table_find_string objects keys cs h = some id) :
    strContents objects id = some cs := by
  unfold table_find_string at hf
  have hp := List.find?_some hf
  simp only [] at hp
  cases hfo : heapFind objects id with
  | none => rw [hfo] at hp; simp at hp
  | some o =>
    rw [hfo] at hp
    simp only [] at hp
    unfold string_equals at hp
    cases hd : o.data with
    | ostr chars hsh =>
      rw [hd] at hp
      simp only [Bool.and_eq_true, decide_eq_true_eq] at hp
      simp [strContents, hfo, hd, hp.2]
    | ofun a r c n => rw [hd] at hp; simp at hp
    | oarr es => rw [hd] at hp; simp at hp
    | ocls n ms => rw [hd] at hp; simp at hp
    | oinst k fs => rw [hd] at hp; simp at hp
    | obound r mt => rw [hd] at hp; simp at hp

theorem obj_string_take_contents (vm : VM) (cs : List Char) :
    strContents (obj_string_take vm cs).1.objects (obj_string_take vm cs).2 =
      some cs := by
  unfold obj_string_take
  cases hfind : table_find_string vm.objects vm.strings cs (hash_bytes cs) with
  | some interned =>
    simp only [hfind]
    exact table_find_string_contents _ _ _ _ _ hfind
  | none =>
    simp only [hfind]
    have hobj : (table_define (vm_push (allocate_string vm cs (hash_bytes cs)).1
        (.vobj (allocate_string vm cs (hash_bytes cs)).2))
        (allocate_string vm cs (hash_bytes cs)).2).objects =
        ⟨vm.next_id, false, .ostr cs (hash_bytes cs)⟩ :: vm.objects :=
      table_define_objects _ _
    show strContents (table_define _ _).objects vm.next_id = some cs
    rw [hobj]
    simp [strContents, heapFind_cons_self]

theorem strBytes_not_array (objects : List HeapObj) (v : Value) (cb : List Char)
    (h : strBytes objects v = some cb) : arrayElems objects v = none := by
  cases v with
  | vnull => rfl
  | vbool b => rfl
  | vnum q => rfl
  | vobj id =>
    simp only [strBytes] at h
    cases hf : heapFind objects id with
    | none => unfold strContents at h; rw [hf] at h; simp at h
    | some o =>
      obtain ⟨h2, hd⟩ := strContents_inv objects id o cb hf h
      simp [arrayElems, hf, hd]

/-- C2: ADD on a left array builds a fresh array (id = the allocation
counter) holding the left elements followed by the right's elements (for a
right array) or the right value itself, leaving the left array unchanged;
on two strings it interns the byte concatenation; on two numbers it adds;
in every remaining case it reports a runtime error. -/
theorem C2_add_polymorphic (vm : VM) (a b : Value) (hb : idsBounded vm)
    (hbv : ∀ bid, b = .vobj bid → bid < vm.next_id) :
    (∀ aElems bElems, arrayElems vm.objects a = some aElems →
      arrayElems vm.objects b = some bElems →
      ∃ vmf, op_add vm a b = .ok (vmf, .vobj vm.next_id) ∧
        arrayElems vmf.objects (.vobj vm.next_id) = some (aElems ++ bElems) ∧
        arrayElems vmf.objects a = some aElems)
    ∧ (∀ aElems, arrayElems vm.objects a = some aElems →
      arrayElems vm.objects b = none →
      ∃ vmf, op_add vm a b = .ok (vmf, .vobj vm.next_id) ∧
        arrayElems vmf.objects (.vobj vm.next_id) = some (aElems ++ [b]) ∧
        arrayElems vmf.objects a = some aElems)
    ∧ (∀ ca cb, arrayElems vm.objects a = none →
      strBytes vm.objects a = some ca → strBytes vm.objects b = some cb →
      ∃ vmf sid, op_add vm a b = .ok (vmf, .vobj sid) ∧
        strContents vmf.objects sid = some (ca ++ cb))
    ∧ (∀ x y, a = .vnum x → b = .vnum y →
      op_add vm a b = .ok (vm, .vnum (x + y)))
    ∧ (arrayElems vm.objects a = none →
      (strBytes vm.objects a = none ∨ strBytes vm.objects b = none) →
      (∀ x y, ¬(a = .vnum x ∧ b = .vnum y)) →
      ∃ e, op_add vm a b = .error e) := by
  have hfresh : ∀ o ∈ vm.objects, o.id ≠ vm.next_id :=
    fun o ho => Nat.ne_of_lt (hb o ho)
  have hPobj : ∀ aElems, (obj_array_copy vm aElems).1.objects =
      ⟨vm.next_id, false, .oarr aElems⟩ :: vm.objects := by
    intro aElems
    show heapSet (⟨vm.next_id, false, .oarr []⟩ :: vm.objects) vm.next_id
      (.oarr aElems) = _
    exact heapSet_fresh_cons _ _ _ _ _ hfresh
  refine ⟨?_, ?_, ?_, ?_, ?_⟩
  · intro aElems bElems ha hbarr
    obtain ⟨aid, oa, rfl, hfa, hida, hda⟩ := arrayElems_inv _ a aElems ha
    obtain ⟨bid, ob, rfl, hfb, hidb, hdb⟩ := arrayElems_inv _ b bElems hbarr
    have haidlt : aid < vm.next_id := hida ▸ hb oa (heapFind_mem_id _ _ _ hfa).1
    have hbidlt : bid < vm.next_id := hidb ▸ hb ob (heapFind_mem_id _ _ _ hfb).1
    have hffb : heapFind (⟨vm.next_id, false, ObjData.oarr aElems⟩ :: vm.objects)
        bid = some ob := by
      rw [heapFind_fresh_cons _ _ _ (Nat.ne_of_lt hbidlt)]
      exact hfb
    have hffa : heapFind (⟨vm.next_id, false, ObjData.oarr (aElems ++ bElems)⟩
        :: vm.objects) aid = some oa := by
      rw [heapFind_fresh_cons _ _ _ (Nat.ne_of_lt haidlt)]
      exact hfa
    have hfb2 : arrayElems (vm_push (obj_array_copy vm aElems).1
        (.vobj (obj_array_copy vm aElems).2)).objects (.vobj bid) = some bElems := by
      show arrayElems (obj_array_copy vm aElems).1.objects (.vobj bid) = some bElems
      rw [hPobj]
      simp only [arrayElems, hffb, hdb]
    cases bElems with
    | nil =>
      have hffa0 : heapFind (⟨vm.next_id, false, ObjData.oarr aElems⟩ :: vm.objects)
          aid = some oa := by simpa using hffa
      refine ⟨(vm_pop (vm_push (obj_array_copy vm aElems).1
        (.vobj (obj_array_copy vm aElems).2))).1, ?_, ?_, ?_⟩
      · have hext0 : obj_array_extend (vm_push (obj_array_copy vm aElems).1
            (.vobj (obj_array_copy vm aElems).2)) (obj_array_copy vm aElems).2
            ([] : List Value) =
            some (vm_push (obj_array_copy vm aElems).1
              (.vobj (obj_array_copy vm aElems).2)) := rfl
        simp only [op_add, ha, hfb2, hext0]
        rfl
      · show arrayElems (obj_array_copy vm aElems).1.objects _ = _
        rw [hPobj]
        simp [arrayElems, heapFind_cons_self]
      · show arrayElems (obj_array_copy vm aElems).1.objects _ = _
        rw [hPobj]
        simp only [arrayElems, hffa0, hda]
    | cons be bes =>
      have hfind2 : heapFind (vm_push (obj_array_copy vm aElems).1
          (.vobj (obj_array_copy vm aElems).2)).objects
          (obj_array_copy vm aElems).2 =
          some ⟨vm.next_id, false, .oarr aElems⟩ := by
        show heapFind (obj_array_copy vm aElems).1.objects vm.next_id = _
        rw [hPobj]
        exact heapFind_cons_self _ _ _ _
      have hext : obj_array_extend (vm_push (obj_array_copy vm aElems).1
          (.vobj (obj_array_copy vm aElems).2)) (obj_array_copy vm aElems).2
          (be :: bes) =
          some { (vm_push (obj_array_copy vm aElems).1
              (.vobj (obj_array_copy vm aElems).2)) with
            objects := heapSet (vm_push (obj_array_copy vm aElems).1
              (.vobj (obj_array_copy vm aElems).2)).objects vm.next_id
              (.oarr (aElems ++ (be :: bes)))
            bytes_allocated := (vm_push (obj_array_copy vm aElems).1
              (.vobj (obj_array_copy vm aElems).2)).bytes_allocated +
              (be :: bes).length * sizeof_Value } := by
        unfold obj_array_extend
        rw [if_neg (by simp)]
        rw [hfind2]
        rfl
      have hset : heapSet (vm_push (obj_array_copy vm aElems).1
          (.vobj (obj_array_copy vm aElems).2)).objects vm.next_id
          (.oarr (aElems ++ (be :: bes))) =
          ⟨vm.next_id, false, .oarr (aElems ++ (be :: bes))⟩ :: vm.objects := by
        show heapSet (obj_array_copy vm aElems).1.objects _ _ = _
        rw [hPobj]
        exact heapSet_fresh_cons _ _ _ _ _ hfresh
      refine ⟨(vm_pop { (vm_push (obj_array_copy vm aElems).1
          (.vobj (obj_array_copy vm aElems).2)) with
        objects := heapSet (vm_push (obj_array_copy vm aElems).1
          (.vobj (obj_array_copy vm aElems).2)).objects vm.next_id
          (.oarr (aElems ++ (be :: bes)))
        bytes_allocated := (vm_push (obj_array_copy vm aElems).1
          (.vobj (obj_array_copy vm aElems).2)).bytes_allocated +
          (be :: bes).length * sizeof_Value }).1, ?_, ?_, ?_⟩
      · simp only [op_add, ha, hfb2, hext] <;> try rfl
      · show arrayElems (heapSet (vm_push (obj_array_copy vm aElems).1
          (.vobj (obj_array_copy vm aElems).2)).objects vm.next_id
          (.oarr (aElems ++ (be :: bes)))) _ = _
        rw [hset]
        simp [arrayElems, heapFind_cons_self]
      · show arrayElems (heapSet (vm_push (obj_array_copy vm aElems).1
          (.vobj (obj_array_copy vm aElems).2)).objects vm.next_id
          (.oarr (aElems ++ (be :: bes)))) _ = _
        rw [hset]
        simp only [arrayElems, hffa, hda]
  · intro aElems ha hbnone
    obtain ⟨aid, oa, rfl, hfa, hida, hda⟩ := arrayElems_inv _ a aElems ha
    have haidlt : aid < vm.next_id := hida ▸ hb oa (heapFind_mem_id _ _ _ hfa).1
    have hffa : heapFind (⟨vm.next_id, false, ObjData.oarr (aElems ++ [b])⟩
        :: vm.objects) aid = some oa := by
      rw [heapFind_fresh_cons _ _ _ (Nat.ne_of_lt haidlt)]
      exact hfa
    have hbnone2 : arrayElems (vm_push (obj_array_copy vm aElems).1
        (.vobj (obj_array_copy vm aElems).2)).objects b = none := by
      show arrayElems (obj_array_copy vm aElems).1.objects b = none
      rw [hPobj]
      cases b with
      | vnull => rfl
      | vbool x => rfl
      | vnum x => rfl
      | vobj bid =>
        have hbe : bid ≠ vm.next_id := Nat.ne_of_lt (hbv bid rfl)
        have hff : heapFind (⟨vm.next_id, false, ObjData.oarr aElems⟩ ::
            vm.objects) bid = heapFind vm.objects bid :=
          heapFind_fresh_cons _ _ _ hbe
        simp only [arrayElems, hff] at hbnone ⊢
        exact hbnone
    have hfind2 : heapFind (vm_push (obj_array_copy vm aElems).1
        (.vobj (obj_array_copy vm aElems).2)).objects
        (obj_array_copy vm aElems).2 =
        some ⟨vm.next_id, false, .oarr aElems⟩ := by
      show heapFind (obj_array_copy vm aElems).1.objects vm.next_id = _
      rw [hPobj]
      exact heapFind_cons_self _ _ _ _
    have happ : obj_array_append (vm_push (obj_array_copy vm aElems).1
        (.vobj (obj_array_copy vm aElems).2)) (obj_array_copy vm aElems).2 b =
        some { (vm_push (obj_array_copy vm aElems).1
            (.vobj (obj_array_copy vm aElems).2)) with
          objects := heapSet (vm_push (obj_array_copy vm aElems).1
            (.vobj (obj_array_copy vm aElems).2)).objects vm.next_id
            (.oarr (aElems ++ [b]))
          bytes_allocated := (vm_push (obj_array_copy vm aElems).1
            (.vobj (obj_array_copy vm aElems).2)).bytes_allocated +
            sizeof_Value } := by
      unfold obj_array_append
      rw [hfind2]
      rfl
    have hset : heapSet (vm_push (obj_array_copy vm aElems).1
        (.vobj (obj_array_copy vm aElems).2)).objects vm.next_id
        (.oarr (aElems ++ [b])) =
        ⟨vm.next_id, false, .oarr (aElems ++ [b])⟩ :: vm.objects := by
      show heapSet (obj_array_copy vm aElems).1.objects _ _ = _
      rw [hPobj]
      exact heapSet_fresh_cons _ _ _ _ _ hfresh
    refine ⟨(vm_pop { (vm_push (obj_array_copy vm aElems).1
        (.vobj (obj_array_copy vm aElems).2)) with
      objects := heapSet (vm_push (obj_array_copy vm aElems).1
        (.vobj (obj_array_copy vm aElems).2)).objects vm.next_id
        (.oarr (aElems ++ [b]))
      bytes_allocated := (vm_push (obj_array_copy vm aElems).1
        (.vobj (obj_array_copy vm aElems).2)).bytes_allocated +
        sizeof_Value }).1, ?_, ?_, ?_⟩
    · simp only [op_add, ha, hbnone2, happ] <;> try rfl
    · show arrayElems (heapSet (vm_push (obj_array_copy vm aElems).1
        (.vobj (obj_array_copy vm aElems).2)).objects vm.next_id
        (.oarr (aElems ++ [b]))) _ = _
      rw [hset]
      simp [arrayElems, heapFind_cons_self]
    · show arrayElems (heapSet (vm_push (obj_array_copy vm aElems).1
        (.vobj (obj_array_copy vm aElems).2)).objects vm.next_id
        (.oarr (aElems ++ [b]))) _ = _
      rw [hset]
      simp only [arrayElems, hffa, hda]
  · intro ca cb hana hsa hsb
    have hbna : arrayElems vm.objects b = none := strBytes_not_array _ _ _ hsb
    have hc : concatenate vm a b = some ((obj_string_take vm (ca ++ cb)).1,
        .vobj (obj_string_take vm (ca ++ cb)).2) := by
      unfold concatenate
      rw [hsa, hsb]
    refine ⟨(obj_string_take vm (ca ++ cb)).1, (obj_string_take vm (ca ++ cb)).2,
      ?_, obj_string_take_contents vm (ca ++ cb)⟩
    simp only [op_add, hana, hbna, Option.isSome_none, Bool.false_eq_true,
      if_false, hc]
  · rintro x y rfl rfl
    rfl
  · intro hana hs hn
    cases hbarr : arrayElems vm.objects b with
    | some bes =>
      exact ⟨("Left operand must be an array for array addition.", vm), by
        simp only [op_add, hana, hbarr, Option.isSome_some, if_true]⟩
    | none =>
      have hc : concatenate vm a b = none := by
        unfold concatenate
        rcases hs with h | h
        · rw [h]
        · rw [h]
          cases strBytes vm.objects a <;> rfl
      cases a with
      | vnum x =>
        cases b with
        | vnum y => exact absurd ⟨rfl, rfl⟩ (hn x y)
        | vnull => exact ⟨("Operands must be numbers or strings.", vm), by
            simp only [op_add, hana, hbarr, Option.isSome_none, Bool.false_eq_true,
              if_false, hc]⟩
        | vbool w => exact ⟨("Operands must be numbers or strings.", vm), by
            simp only [op_add, hana, hbarr, Option.isSome_none, Bool.false_eq_true,
              if_false, hc]⟩
        | vobj w => exact ⟨("Operands must be numbers or strings.", vm), by
            simp only [op_add, hana, hbarr, Option.isSome_none, Bool.false_eq_true,
              if_false, hc]⟩
      | vnull => exact ⟨("Operands must be numbers or strings.", vm), by
          simp only [op_add, hana, hbarr, Option.isSome_none, Bool.false_eq_true,
            if_false, hc]⟩
      | vbool w => exact ⟨("Operands must be numbers or strings.", vm), by
          simp only [op_add, hana, hbarr, Option.isSome_none, Bool.false_eq_true,
            if_false, hc]⟩
      | vobj w => exact ⟨("Operands must be numbers or strings.", vm), by
          simp only [op_add, hana, hbarr, Option.isSome_none, Bool.false_eq_true,
            if_false, hc]⟩

def c2vm : VM :=
  ⟨[], [], 0, [], [],
    [⟨0, false, .oarr [.vnull]⟩, ⟨1, false, .oarr [.vbool true]⟩], 0, 1024, [], 2⟩

theorem C2_add_polymorphic_witness :
    idsBounded c2vm ∧
    ((∀ aElems bElems, arrayElems c2vm.objects (.vobj 0) = some aElems →
      arrayElems c2vm.objects (.vobj 1) = some bElems →
      ∃ vmf, op_add c2vm (.vobj 0) (.vobj 1) = .ok (vmf, .vobj c2vm.next_id) ∧
        arrayElems vmf.objects (.vobj c2vm.next_id) = some (aElems ++ bElems) ∧
        arrayElems vmf.objects (.vobj 0) = some aElems)
    ∧ (∀ aElems, arrayElems c2vm.objects (.vobj 0) = some aElems →
      arrayElems c2vm.objects (.vobj 1) = none →
      ∃ vmf, op_add c2vm (.vobj 0) (.vobj 1) = .ok (vmf, .vobj c2vm.next_id) ∧
        arrayElems vmf.objects (.vobj c2vm.next_id) = some (aElems ++ [.vobj 1]) ∧
        arrayElems vmf.objects (.vobj 0) = some aElems)
    ∧ (∀ ca cb, arrayElems c2vm.objects (.vobj 0) = none →
      strBytes c2vm.objects (.vobj 0) = some ca →
      strBytes c2vm.objects (.vobj 1) = some cb →
      ∃ vmf sid, op_add c2vm (.vobj 0) (.vobj 1) = .ok (vmf, .vobj sid) ∧
        strContents vmf.objects sid = some (ca ++ cb))
    ∧ (∀ x y, Value.vobj 0 = .vnum x → Value.vobj 1 = .vnum y →
      op_add c2vm (.vobj 0) (.vobj 1) = .ok (c2vm, .vnum (x + y)))
    ∧ (arrayElems c2vm.objects (.vobj 0) = none →
      (strBytes c2vm.objects (.vobj 0) = none ∨
        strBytes c2vm.objects (.vobj 1) = none) →
      (∀ x y, ¬(Value.vobj 0 = .vnum x ∧ Value.vobj 1 = .vnum y)) →
      ∃ e, op_add c2vm (.vobj 0) (.vobj 1) = .error e)) :=
  ⟨by decide, C2_add_polymorphic c2vm (.vobj 0) (.vobj 1) (by decide)
    (fun bid h => by cases h; decide)⟩

end Vibelang

namespace Vibelang

/-! ## C5: constructor return semantics -/

theorem discard_pending_type (c : Compiler) :
    (discard_pending_expression c).type = c.type := by
  unfold discard_pending_expression
  split <;> rfl

set_option maxHeartbeats 0 in
/-- C5: a compiler in initializer mode (as compile_method sets up for a
`constructor`) synthesizes a default return of the slot-0 local — the
receiver `this`, whose register is 0 in the child compiler compile_method
builds — rather than loading null; and a return statement carrying a value
fails compilation with the constructor error. -/
theorem C5_constructor_returns (c : Compiler) (v : Expression)
    (henc : c.enclosing = true)
    (hty : c.type = FunctionType.FUNCTION_TYPE_INITIALIZER)
    (hloc : 0 < c.locals.length) :
    (∃ c2, emit_return c = .ok c2 ∧
      c2.func.code = c.func.code ++ [opRETURN, byte8 ((c.locals.getD 0 noLocal).reg)])
    ∧ compile_statement c (.returnS (some v)) =
        .error "Cannot return a value from constructor."
    ∧ (∀ gs fn, ∃ p, add_local (compiler_init true gs fn
        .FUNCTION_TYPE_INITIALIZER) "this" = .ok p ∧
        ((local_finish p.1 p.2 0).locals.getD 0 noLocal).reg = 0) := by
  refine ⟨?_, ?_, ?_⟩
  · refine ⟨emit_return_value c ((c.locals.getD 0 noLocal).reg), ?_, ?_⟩
    · unfold emit_return
      rw [if_neg (by simp [henc])]
      rw [if_pos ⟨hty, hloc⟩]
      rfl
    · simp [emit_return_value, emit_byte]
  · have h1 : (discard_pending_expression (discard_pending_expression c)).type =
        FunctionType.FUNCTION_TYPE_INITIALIZER := by
      rw [discard_pending_type, discard_pending_type, hty]
    rw [compile_statement]
    rw [if_pos ⟨h1, rfl⟩]
    rfl
  · intro gs fn
    exact ⟨_, rfl, rfl⟩

def c5c : Compiler :=
  ⟨true, ⟨some "init", 1, 1, [], [], []⟩, [], [⟨"this", 0, true, 0⟩], 0, false, 0,
    false, ⟨-1, false⟩, .FUNCTION_TYPE_INITIALIZER⟩

theorem C5_constructor_returns_witness :
    c5c.enclosing = true ∧
    c5c.type = FunctionType.FUNCTION_TYPE_INITIALIZER ∧
    0 < c5c.locals.length ∧
    ((∃ c2, emit_return c5c = .ok c2 ∧
      c2.func.code = c5c.func.code ++
        [opRETURN, byte8 ((c5c.locals.getD 0 noLocal).reg)])
    ∧ compile_statement c5c (.returnS (some (.boolLit true))) =
        .error "Cannot return a value from constructor."
    ∧ (∀ gs fn, ∃ p, add_local (compiler_init true gs fn
        .FUNCTION_TYPE_INITIALIZER) "this" = .ok p ∧
        ((local_finish p.1 p.2 0).locals.getD 0 noLocal).reg = 0)) :=
  ⟨rfl, rfl, by decide,
    C5_constructor_returns c5c (.boolLit true) rfl rfl (by decide)⟩

end Vibelang

namespace Vibelang

/-! ## C1: the implicit script result -/

def c1prog : List Statement :=
  [.ifS (.boolLit true) (.exprS (.numberLit 2)) none]

/-- C1 counterexample: the program `if (true) 2;` ends in an if statement,
not an expression statement, yet the compiled top-level code ends with
`RETURN 0` — the register of the branch's expression-statement value —
with no LOAD_NULL before it: an expression statement inside a non-block
branch at scope depth 0 leaves a pending value that the final RETURN
returns, contradicting the claim that such programs return null. -/
theorem C1_counterexample_pending_leak :
    (compiler_compile c1prog).toOption.map (fun f => f.code) =
      some [2, 0, 15, 0, 0, 7, 0, 0, 0, 0, 14, 0, 0, 18, 0] ∧
    List.take 2 (List.drop 13 [2, 0, 15, 0, 0, 7, 0, 0, 0, 0, 14, 0, 0, 18, 0]) =
      [opRETURN, 0] ∧
    List.getD [2, 0, 15, 0, 0, 7, 0, 0, 0, 0, 14, 0, 0, 18, 0] 11 0 ≠ opLOAD_NULL ∧
    (∀ e, c1prog.getLast? ≠ some (.exprS e)) :=
  ⟨by decide, by decide, by decide, fun e h => by simp [c1prog] at h⟩

theorem push_stack_slot_ok (c : Compiler)
    (hl : (c.locals.length : Int) + c.stack_depth + 1 ≤ 255)
    (hrc : c.func.register_count ≤ 255) :
    ∃ c2, push_stack_slot c = .ok (c2, stack_register c c.stack_depth) ∧
      c2.func.code = c.func.code := by
  simp only [push_stack_slot, update_register_usage]
  split_ifs with h1 h2 h3
  · exfalso
    simp only [] at h1 h2
    omega
  · exact ⟨_, rfl, rfl⟩
  · exfalso
    simp only [] at h1 h3
    omega
  · exact ⟨_, rfl, rfl⟩

/-- C1 (amended): the final implicit return of a compiled program follows
the compiler's pending-expression flag, not the syntactic form of the last
top-level statement: when compilation of the statement list leaves
pending_has_value set (which an expression statement compiled at scope
depth 0 does, even from inside a non-block if/while branch), the emitted
epilogue is RETURN of the pending register; only when the flag is clear
does the epilogue load null into a fresh stack register and return it. -/
theorem C1_final_return_follows_pending_flag (program : List Statement)
    (cend : Compiler)
    (h : compile_block (compiler_init false [] ⟨some "script", 0, 0, [], [], []⟩
      .FUNCTION_TYPE_SCRIPT) program = .ok cend)
    (henc : cend.enclosing = false)
    (hty : cend.type = .FUNCTION_TYPE_SCRIPT)
    (hl : (cend.locals.length : Int) + cend.stack_depth + 1 ≤ 255)
    (hrc : cend.func.register_count ≤ 255) :
    (cend.pending_has_value = true →
      ∃ fn, compiler_compile program = .ok fn ∧
        fn.code = cend.func.code ++ [opRETURN, byte8 cend.pending_value.reg])
    ∧ (cend.pending_has_value = false →
      ∃ fn, compiler_compile program = .ok fn ∧
        fn.code = cend.func.code ++
          [opLOAD_NULL, byte8 (stack_register cend cend.stack_depth),
           opRETURN, byte8 (stack_register cend cend.stack_depth)]) := by
  have hstep : compiler_compile program =
      Bind.bind (emit_return cend) (fun c => pure c.func) := by
    unfold compiler_compile
    simp only [h]
    rfl
  constructor
  · intro hp
    have her : emit_return cend =
        .ok { (emit_return_value cend cend.pending_value.reg) with
          pending_has_value := false, has_pending_expression := false,
          stack_depth := 0 } := by
      unfold emit_return
      rw [if_pos ⟨by simp [henc], hp⟩]
      rfl
    refine ⟨(emit_return_value cend cend.pending_value.reg).func, ?_, ?_⟩
    · rw [hstep, her]
      rfl
    · simp [emit_return_value, emit_byte, List.append_assoc]
  · intro hp
    obtain ⟨c2, hps, hcode⟩ := push_stack_slot_ok cend hl hrc
    have her : emit_return cend =
        .ok (pop_stack_slots (emit_return_value
          (emit_op_load_null c2 (stack_register cend cend.stack_depth))
          (stack_register cend cend.stack_depth)) 1) := by
      unfold emit_return
      rw [if_neg (by simp [hp])]
      rw [if_neg (by simp [hty])]
      rw [hps]
      rfl
    refine ⟨(pop_stack_slots (emit_return_value
        (emit_op_load_null c2 (stack_register cend cend.stack_depth))
        (stack_register cend cend.stack_depth)) 1).func, ?_, ?_⟩
    · rw [hstep, her]
      rfl
    · simp [pop_stack_slots, emit_return_value, emit_op_load_null, emit_byte,
        hcode, List.append_assoc]

def c1wprog : List Statement := [.exprS (.boolLit true)]

def c1wc : Compiler :=
  ⟨false, ⟨some "script", 0, 1, [2, 0], [0, 0], []⟩, [], [], 0, true, 1, true,
    ⟨0, true⟩, .FUNCTION_TYPE_SCRIPT⟩

theorem C1_final_return_follows_pending_flag_witness :
    compile_block (compiler_init false [] ⟨some "script", 0, 0, [], [], []⟩
      .FUNCTION_TYPE_SCRIPT) c1wprog = .ok c1wc ∧
    c1wc.enclosing = false ∧
    c1wc.type = .FUNCTION_TYPE_SCRIPT ∧
    (c1wc.locals.length : Int) + c1wc.stack_depth + 1 ≤ 255 ∧
    c1wc.func.register_count ≤ 255 ∧
    ((c1wc.pending_has_value = true →
      ∃ fn, compiler_compile c1wprog = .ok fn ∧
        fn.code = c1wc.func.code ++ [opRETURN, byte8 c1wc.pending_value.reg])
    ∧ (c1wc.pending_has_value = false →
      ∃ fn, compiler_compile c1wprog = .ok fn ∧
        fn.code = c1wc.func.code ++
          [opLOAD_NULL, byte8 (stack_register c1wc c1wc.stack_depth),
           opRETURN, byte8 (stack_register c1wc c1wc.stack_depth)])) :=
  ⟨rfl, rfl, rfl, by decide, by decide,
    C1_final_return_follows_pending_flag c1wprog c1wc rfl rfl rfl
      (by decide) (by decide)⟩

end Vibelang

namespace Vibelang

/-! ## C4: garbage collection -/

/-- The object id a value references, if any. -/
def valId : Value → Option ObjId
  | .vobj id => some id
  | _ => none

/-- The outgoing references of one object, exactly the ids blacken_object
marks. -/
def objRefs : ObjData → List ObjId
  | .ostr _ _ => []
  | .ofun _ _ chunk name => name.toList ++ chunk.constants.filterMap valId
  | .oarr elems => elems.filterMap valId
  | .ocls name ms => name.toList ++ (ms.map Prod.fst ++
      ms.filterMap (fun p => valId p.2))
  | .oinst klass fs => klass :: (fs.map Prod.fst ++
      fs.filterMap (fun p => valId p.2))
  | .obound receiver m => (valId receiver).toList ++ [m]

/-- Reachability from the GC roots: live stack slots, active frames'
functions, defined globals, closed under following object references. -/
inductive Reachable (vm : VM) : ObjId → Prop where
  | stackRoot (id : ObjId) (hmem : Value.vobj id ∈ vm.stack.take vm.stack_top) :
      Reachable vm id
  | frameRoot (f : CallFrame) (hf : f ∈ vm.frames) : Reachable vm f.function
  | globalRoot (g : Value × Bool) (hg : g ∈ vm.globals) (hd : g.2 = true)
      (id : ObjId) (hid : g.1 = .vobj id) : Reachable vm id
  | step (id id2 : ObjId) (o : HeapObj) (hr : Reachable vm id)
      (ho : heapFind vm.objects id = some o) (hm : id2 ∈ objRefs o.data) :
      Reachable vm id2

def objShape (objects : List HeapObj) : List (ObjId × ObjData) :=
  objects.map (fun o => (o.id, o.data))

/-- The soundness invariant of the mark phase: the heap shape is the
original one, and every marked object and every gray id is reachable. -/
def MarkInv (vm0 vm : VM) : Prop :=
  objShape vm.objects = objShape vm0.objects ∧
  (∀ o ∈ vm.objects, o.marked = true → Reachable vm0 o.id) ∧
  (∀ id ∈ vm.gray_stack, Reachable vm0 id)

theorem objShape_setMarked (objects : List HeapObj) (id : ObjId) (b : Bool) :
    objShape (setMarked objects id b) = objShape objects := by
  unfold objShape setMarked
  rw [List.map_map]
  apply List.map_congr_left
  intro o _
  by_cases h : o.id = id <;> simp [h]

theorem heapFind_shape (a b : List HeapObj) (h : objShape a = objShape b) :
    ∀ id, (heapFind a id).map (fun o => o.data) =
      (heapFind b id).map (fun o => o.data) := by
  induction a generalizing b with
  | nil =>
    cases b with
    | nil => intro id; rfl
    | cons y ys => simp [objShape] at h
  | cons x xs ih =>
    cases b with
    | nil => simp [objShape] at h
    | cons y ys =>
      simp only [objShape, List.map_cons, List.cons.injEq] at h
      obtain ⟨hxy, hrest⟩ := h
      have hid : x.id = y.id := congrArg Prod.fst hxy
      have hdata : x.data = y.data := congrArg Prod.snd hxy
      intro id
      unfold heapFind
      by_cases hx : x.id = id
      · rw [List.find?_cons_of_pos _ (by simpa using hx),
          List.find?_cons_of_pos _ (by simpa using (hid ▸ hx))]
        simp [hdata]
      · rw [List.find?_cons_of_neg _ (by simpa using hx),
          List.find?_cons_of_neg _ (by simpa using (hid ▸ hx))]
        exact ih ys hrest id

theorem markInv_mark_object (vm0 vm : VM) (id : ObjId) (hinv : MarkInv vm0 vm)
    (hr : Reachable vm0 id) : MarkInv vm0 (mark_object vm id) := by
  unfold mark_object
  cases ho : heapFind vm.objects id with
  | none => exact hinv
  | some o =>
    simp only []
    by_cases hm : o.marked = true
    · rw [if_pos hm]
      exact hinv
    · rw [if_neg hm]
      refine ⟨?_, ?_, ?_⟩
      · rw [show (objShape (setMarked vm.objects id true)) = objShape vm.objects
          from objShape_setMarked _ _ _]
        exact hinv.1
      · intro o2 ho2 hm2
        unfold setMarked at ho2
        obtain ⟨o3, ho3, rfl⟩ := List.mem_map.mp ho2
        by_cases h3 : o3.id = id
        · rw [if_pos h3]
          simpa [h3] using hr
        · rw [if_neg h3] at hm2 ⊢
          exact hinv.2.1 o3 ho3 hm2
      · intro i hi
        simp only [List.mem_cons] at hi
        rcases hi with rfl | hi
        · exact hr
        · exact hinv.2.2 i hi

theorem markInv_mark_value (vm0 vm : VM) (v : Value) (hinv : MarkInv vm0 vm)
    (hv : ∀ id, v = .vobj id → Reachable vm0 id) :
    MarkInv vm0 (mark_value vm v) := by
  cases v with
  | vobj id => exact markInv_mark_object vm0 vm id hinv (hv id rfl)
  | vnull => exact hinv
  | vbool b => exact hinv
  | vnum q => exact hinv

theorem markInv_foldl {α : Type} (vm0 : VM) (f : VM → α → VM) (l : List α)
    (hf : ∀ s a, a ∈ l → MarkInv vm0 s → MarkInv vm0 (f s a)) :
    ∀ s, MarkInv vm0 s → MarkInv vm0 (l.foldl f s) := by
  induction l with
  | nil => intro s h; simpa
  | cons a rest ih =>
    intro s h
    exact ih (fun s2 a2 ha2 h2 => hf s2 a2 (by simp [ha2]) h2) (f s a)
      (hf s a (by simp) h)

theorem markInv_mark_roots (vm0 : VM) (h0 : MarkInv vm0 vm0) :
    MarkInv vm0 (mark_roots vm0) := by
  unfold mark_roots
  refine markInv_foldl vm0 _ vm0.globals ?_ _
    (markInv_foldl vm0 _ vm0.frames ?_ _
      (markInv_foldl vm0 mark_value (vm0.stack.take vm0.stack_top) ?_ vm0 h0))
  · intro s g hg hs
    by_cases hd : g.2 = true
    · rw [if_pos hd]
      exact markInv_mark_value vm0 s g.1 hs
        (fun id hid => Reachable.globalRoot g hg hd id hid)
    · rw [if_neg hd]
      exact hs
  · intro s f hf hs
    exact markInv_mark_object vm0 s f.function hs (Reachable.frameRoot f hf)
  · intro s v hv hs
    exact markInv_mark_value vm0 s v hs
      (fun id hid => Reachable.stackRoot id (hid ▸ hv))

end Vibelang

namespace Vibelang

theorem markInv_blacken (vm0 vm : VM) (id : ObjId) (hinv : MarkInv vm0 vm)
    (hr : Reachable vm0 id) : MarkInv vm0 (blacken_object vm id) := by
  unfold blacken_object
  cases ho : heapFind vm.objects id with
  | none => exact hinv
  | some o =>
    simp only []
    have hfd := heapFind_shape _ _ hinv.1 id
    rw [ho] at hfd
    obtain ⟨o0, ho0, hdata0⟩ : ∃ o0, heapFind vm0.objects id = some o0 ∧
        o0.data = o.data := by
      cases hx : heapFind vm0.objects id with
      | none => rw [hx] at hfd; simp at hfd
      | some oo =>
        rw [hx] at hfd
        simp at hfd
        exact ⟨oo, rfl, hfd.symm⟩
    have hrefstep : ∀ id2 ∈ objRefs o.data, Reachable vm0 id2 := fun id2 h2 =>
      Reachable.step id id2 o0 hr ho0 (by rw [hdata0]; exact h2)
    cases hd : o.data with
    | ostr cs hh => exact hinv
    | oarr elems =>
      rw [hd] at hrefstep
      show MarkInv vm0 (elems.foldl mark_value vm)
      refine markInv_foldl vm0 mark_value elems ?_ vm hinv
      intro s v hv hs
      refine markInv_mark_value vm0 s v hs ?_
      intro id2 hid2
      apply hrefstep
      simp only [objRefs, List.mem_filterMap]
      exact ⟨v, hv, by rw [hid2]; rfl⟩
    | ofun a r chunk name =>
      rw [hd] at hrefstep
      have hconst : ∀ (s : VM) (v : Value), v ∈ chunk.constants → MarkInv vm0 s →
          MarkInv vm0 (mark_value s v) := by
        intro s v hv hs
        refine markInv_mark_value vm0 s v hs ?_
        intro id2 hid2
        apply hrefstep
        simp only [objRefs, List.mem_append, List.mem_filterMap]
        exact Or.inr ⟨v, hv, by rw [hid2]; rfl⟩
      cases name with
      | some nid =>
        show MarkInv vm0 (chunk.constants.foldl mark_value (mark_object vm nid))
        refine markInv_foldl vm0 mark_value chunk.constants hconst _ ?_
        refine markInv_mark_object vm0 vm nid hinv ?_
        apply hrefstep
        simp [objRefs]
      | none =>
        show MarkInv vm0 (chunk.constants.foldl mark_value vm)
        exact markInv_foldl vm0 mark_value chunk.constants hconst vm hinv
    | ocls name ms =>
      rw [hd] at hrefstep
      have hpair : ∀ (s : VM) (p : ObjId × Value), p ∈ ms → MarkInv vm0 s →
          MarkInv vm0 (mark_value (mark_object s p.1) p.2) := by
        intro s p hp hs
        refine markInv_mark_value vm0 _ p.2 ?_ ?_
        · refine markInv_mark_object vm0 s p.1 hs ?_
          apply hrefstep
          simp only [objRefs, List.mem_append, List.mem_map]
          exact Or.inr (Or.inl ⟨p, hp, rfl⟩)
        · intro id2 hid2
          apply hrefstep
          simp only [objRefs, List.mem_append, List.mem_filterMap]
          exact Or.inr (Or.inr ⟨p, hp, by rw [hid2]; rfl⟩)
      cases name with
      | some nid =>
        show MarkInv vm0 (ms.foldl (fun s p => mark_value (mark_object s p.1) p.2)
          (mark_object vm nid))
        refine markInv_foldl vm0 _ ms hpair _ ?_
        refine markInv_mark_object vm0 vm nid hinv ?_
        apply hrefstep
        simp [objRefs]
      | none =>
        show MarkInv vm0 (ms.foldl (fun s p => mark_value (mark_object s p.1) p.2) vm)
        exact markInv_foldl vm0 _ ms hpair vm hinv
    | oinst klass fs =>
      rw [hd] at hrefstep
      show MarkInv vm0 (fs.foldl (fun s p => mark_value (mark_object s p.1) p.2)
        (mark_object vm klass))
      have hpair : ∀ (s : VM) (p : ObjId × Value), p ∈ fs → MarkInv vm0 s →
          MarkInv vm0 (mark_value (mark_object s p.1) p.2) := by
        intro s p hp hs
        refine markInv_mark_value vm0 _ p.2 ?_ ?_
        · refine markInv_mark_object vm0 s p.1 hs ?_
          apply hrefstep
          simp only [objRefs, List.mem_cons, List.mem_append, List.mem_map]
          exact Or.inr (Or.inl ⟨p, hp, rfl⟩)
        · intro id2 hid2
          apply hrefstep
          simp only [objRefs, List.mem_cons, List.mem_append, List.mem_filterMap]
          exact Or.inr (Or.inr ⟨p, hp, by rw [hid2]; rfl⟩)
      refine markInv_foldl vm0 _ fs hpair _ ?_
      refine markInv_mark_object vm0 vm klass hinv ?_
      apply hrefstep
      simp [objRefs]
    | obound receiver m =>
      rw [hd] at hrefstep
      show MarkInv vm0 (mark_object (mark_value vm receiver) m)
      refine markInv_mark_object vm0 _ m ?_ ?_
      · refine markInv_mark_value vm0 vm receiver hinv ?_
        intro id2 hid2
        apply hrefstep
        simp only [objRefs, List.mem_append]
        exact Or.inl (by rw [hid2]; simp [valId])
      · apply hrefstep
        simp [objRefs]

theorem markInv_trace_go (vm0 : VM) :
    ∀ (fuel : Nat) (vm : VM), MarkInv vm0 vm → MarkInv vm0 (trace_go fuel vm) := by
  intro fuel
  induction fuel with
  | zero => intro vm h; exact h
  | succ n ih =>
    intro vm h
    unfold trace_go
    cases hg : vm.gray_stack with
    | nil => exact h
    | cons id rest =>
      show MarkInv vm0 (trace_go n (blacken_object { vm with gray_stack := rest } id))
      apply ih
      refine markInv_blacken vm0 _ id ?_ ?_
      · refine ⟨h.1, h.2.1, fun i hi => h.2.2 i ?_⟩
        rw [hg]
        exact List.mem_cons_of_mem _ hi
      · refine h.2.2 id ?_
        rw [hg]
        exact List.mem_cons_self _ _

theorem sweep_objects_marked_false (l : List HeapObj) :
    ∀ o ∈ (sweep_objects l).1, o.marked = false := by
  induction l with
  | nil => intro o ho; simp [sweep_objects] at ho
  | cons x rest ih =>
    intro o ho
    simp only [sweep_objects] at ho
    by_cases hm : x.marked = true
    · rw [if_pos hm] at ho
      simp only [] at ho
      rcases List.mem_cons.mp ho with rfl | h2
      · rfl
      · exact ih o h2
    · rw [if_neg hm] at ho
      simp only [] at ho
      exact ih o ho

theorem sweep_objects_mem (l : List HeapObj) :
    ∀ o ∈ (sweep_objects l).1,
      ∃ o2 ∈ l, o2.marked = true ∧ o = { o2 with marked := false } := by
  induction l with
  | nil => intro o ho; simp [sweep_objects] at ho
  | cons x rest ih =>
    intro o ho
    simp only [sweep_objects] at ho
    by_cases hm : x.marked = true
    · rw [if_pos hm] at ho
      simp only [] at ho
      rcases List.mem_cons.mp ho with rfl | h2
      · exact ⟨x, by simp, hm, rfl⟩
      · obtain ⟨o2, h1, h2m, h3⟩ := ih o h2
        exact ⟨o2, by simp [h1], h2m, h3⟩
    · rw [if_neg hm] at ho
      simp only [] at ho
      obtain ⟨o2, h1, h2m, h3⟩ := ih o ho
      exact ⟨o2, by simp [h1], h2m, h3⟩

theorem sweep_objects_mem_of (l : List HeapObj) :
    ∀ o ∈ l, o.marked = true → { o with marked := false } ∈ (sweep_objects l).1 := by
  induction l with
  | nil => intro o ho; simp at ho
  | cons x rest ih =>
    intro o ho hm
    simp only [sweep_objects]
    rcases List.mem_cons.mp ho with rfl | h2
    · rw [if_pos hm]
      simp only []
      exact List.mem_cons_self _ _
    · by_cases hxm : x.marked = true
      · rw [if_pos hxm]
        simp only []
        exact List.mem_cons_of_mem _ (ih o h2 hm)
      · rw [if_neg hxm]
        simp only []
        exact ih o h2 hm

/-- C4: after vm_collect_garbage on a VM whose marks are clear and whose
gray stack is empty, every surviving object was reachable from the roots
(stack slots, active frames' functions, defined globals) — so every object
unreachable from the roots has been freed and removed — every survivor's
mark bit is cleared, every remaining intern-table entry denotes an object
that survived (entries of freed strings were pruned before the sweep), and
the next collection threshold is max(1024, 2 x the post-sweep allocated
bytes). -/
theorem C4_collect_garbage_sound (vm : VM)
    (hclean : ∀ o ∈ vm.objects, o.marked = false)
    (hgray : vm.gray_stack = []) :
    (∀ o ∈ (vm_collect_garbage vm).objects, Reachable vm o.id)
    ∧ (∀ o ∈ (vm_collect_garbage vm).objects, o.marked = false)
    ∧ (∀ id ∈ (vm_collect_garbage vm).strings,
        ∃ o, o ∈ (vm_collect_garbage vm).objects ∧ o.id = id)
    ∧ (vm_collect_garbage vm).next_gc =
        max 1024 (2 * (vm_collect_garbage vm).bytes_allocated) := by
  have hinv0 : MarkInv vm vm := by
    refine ⟨rfl, ?_, ?_⟩
    · intro o ho hm
      rw [hclean o ho] at hm
      exact absurd hm (by simp)
    · intro i hi
      rw [hgray] at hi
      simp at hi
  have hinv2 : MarkInv vm (trace_references (mark_roots vm)) := by
    unfold trace_references
    exact markInv_trace_go vm _ _ (markInv_mark_roots vm hinv0)
  have hro : (vm_collect_garbage vm).objects =
      (sweep_objects (trace_references (mark_roots vm)).objects).1 := rfl
  have hrs : (vm_collect_garbage vm).strings =
      (trace_references (mark_roots vm)).strings.filter (fun id =>
        match heapFind (trace_references (mark_roots vm)).objects id with
        | some o => o.marked
        | none => false) := rfl
  refine ⟨?_, ?_, ?_, ?_⟩
  · intro o ho
    rw [hro] at ho
    obtain ⟨o2, h1, h2, rfl⟩ := sweep_objects_mem _ o ho
    simpa using hinv2.2.1 o2 h1 h2
  · intro o ho
    rw [hro] at ho
    exact sweep_objects_marked_false _ o ho
  · intro id hid
    rw [hrs] at hid
    obtain ⟨hmem, hp⟩ := List.mem_filter.mp hid
    cases hf : heapFind (trace_references (mark_roots vm)).objects id with
    | none => rw [hf] at hp; simp at hp
    | some o =>
      rw [hf] at hp
      simp only [] at hp
      obtain ⟨homem, hoid⟩ := heapFind_mem_id _ _ _ hf
      refine ⟨{ o with marked := false }, ?_, ?_⟩
      · rw [hro]
        exact sweep_objects_mem_of _ o homem hp
      · simpa using hoid
  · have hgen : ∀ n : Nat, (if n * 2 < 1024 then 1024 else n * 2) =
        max 1024 (2 * n) := by
      intro n
      split <;> omega
    exact hgen (sweep (table_remove_white (trace_references (mark_roots vm)))).bytes_allocated

def c4vm : VM :=
  ⟨[⟨0, 0, 0, none, 0⟩], [.vobj 1], 1, [], [2],
    [⟨0, false, .ofun 0 1 ⟨[], [], []⟩ none⟩, ⟨1, false, .oarr []⟩,
     ⟨2, false, .ostr [Char.ofNat 120] 100⟩], 100, 1024, [], 3⟩

theorem C4_collect_garbage_sound_witness :
    (∀ o ∈ c4vm.objects, o.marked = false) ∧ c4vm.gray_stack = [] ∧
    ((∀ o ∈ (vm_collect_garbage c4vm).objects, Reachable c4vm o.id)
    ∧ (∀ o ∈ (vm_collect_garbage c4vm).objects, o.marked = false)
    ∧ (∀ id ∈ (vm_collect_garbage c4vm).strings,
        ∃ o, o ∈ (vm_collect_garbage c4vm).objects ∧ o.id = id)
    ∧ (vm_collect_garbage c4vm).next_gc =
        max 1024 (2 * (vm_collect_garbage c4vm).bytes_allocated)) :=
  ⟨by decide, rfl, C4_collect_garbage_sound c4vm (by decide) rfl⟩

end Vibelang
